import Mathlib

/-!
Verification development for the emergency-copilot-api real-time
ingestion-and-broadcast pipeline.

The TypeScript source is shallowly embedded in Lean:
* `Geo` embeds `src/utils/geo.ts` (haversine distance over the real
  numbers, idealizing IEEE floats as exact real arithmetic);
* `Grouper` embeds `src/services/incidentGrouper.ts` (the persistence
  collaborator becomes an explicit in-memory database state that the
  functions thread; persistence failures are injected through a fuel
  counter that makes the n-th database operation fail);
* `SnapBuf` embeds `src/services/snapshotBuffer.ts` (the single pending
  `setTimeout` handle per key becomes an `Option Nat` holding the
  scheduled duration; timer firing is an explicit step);
* `SSE` embeds `src/services/sse.ts` (the Express response channel
  becomes an append-only delivery log plus a write-failure oracle; the
  `await` inside `subscribeToIncident` is modelled by splitting the
  subscribe into its two synchronous halves so that publishes may
  interleave at the real suspension point);
* `WS` embeds the session-closure part of
  `src/services/snapshotWebSocket.ts` (status updates are recorded in an
  explicit update log).
-/

namespace Geo

/-- `EARTH_RADIUS_METERS` from `src/utils/geo.ts`. -/
def EARTH_RADIUS_METERS : ℝ := 6371000

/-- `toRadians` from `src/utils/geo.ts`: `degrees * (Math.PI / 180)`. -/
noncomputable def toRadians (degrees : ℝ) : ℝ := degrees * (Real.pi / 180)

/-- JavaScript `Math.atan2(y, x)`: the angle of the point `(x, y)`,
in `(-π, π]`, matching the IEEE/libm definition on real inputs. -/
noncomputable def atan2 (y x : ℝ) : ℝ :=
  if 0 < x then Real.arctan (y / x)
  else if x < 0 then
    if 0 ≤ y then Real.arctan (y / x) + Real.pi
    else Real.arctan (y / x) - Real.pi
  else
    if 0 < y then Real.pi / 2
    else if y < 0 then -(Real.pi / 2)
    else 0

/-- `haversineDistance` from `src/utils/geo.ts`, over ℝ. -/
noncomputable def haversineDistance (lat1 lng1 lat2 lng2 : ℝ) : ℝ :=
  let dLat := toRadians (lat2 - lat1)
  let dLng := toRadians (lng2 - lng1)
  let a := Real.sin (dLat / 2) * Real.sin (dLat / 2) +
    Real.cos (toRadians lat1) * Real.cos (toRadians lat2) *
      (Real.sin (dLng / 2) * Real.sin (dLng / 2))
  let c := 2 * atan2 (Real.sqrt a) (Real.sqrt (1 - a))
  EARTH_RADIUS_METERS * c

/-- `isWithinRadius` from `src/utils/geo.ts`: distance `≤ radiusMeters`
(boundary included). -/
def isWithinRadius (lat1 lng1 lat2 lng2 radiusMeters : ℝ) : Prop :=
  haversineDistance lat1 lng1 lat2 lng2 ≤ radiusMeters

lemma arctan_nonneg {x : ℝ} (hx : 0 ≤ x) : 0 ≤ Real.arctan x := by
  have := Real.arctan_strictMono.monotone hx
  rwa [Real.arctan_zero] at this

lemma atan2_nonneg {y x : ℝ} (hy : 0 ≤ y) : 0 ≤ atan2 y x := by
  unfold atan2
  by_cases hx : 0 < x
  · rw [if_pos hx]
    exact arctan_nonneg (div_nonneg hy hx.le)
  · rw [if_neg hx]
    by_cases hx' : x < 0
    · rw [if_pos hx', if_pos hy]
      have h1 : -(Real.pi / 2) < Real.arctan (y / x) := Real.neg_pi_div_two_lt_arctan _
      have h2 : 0 < Real.pi := Real.pi_pos
      linarith
    · rw [if_neg hx']
      by_cases hy' : 0 < y
      · rw [if_pos hy']
        have := Real.pi_pos
        linarith
      · rw [if_neg hy', if_neg (not_lt.mpr hy)]

lemma toRadians_sub_anticomm (x y : ℝ) : toRadians (x - y) = -(toRadians (y - x)) := by
  unfold toRadians; ring

lemma haversine_arg_symm (lat1 lng1 lat2 lng2 : ℝ) :
    Real.sin (toRadians (lat2 - lat1) / 2) * Real.sin (toRadians (lat2 - lat1) / 2) +
      Real.cos (toRadians lat1) * Real.cos (toRadians lat2) *
        (Real.sin (toRadians (lng2 - lng1) / 2) * Real.sin (toRadians (lng2 - lng1) / 2)) =
    Real.sin (toRadians (lat1 - lat2) / 2) * Real.sin (toRadians (lat1 - lat2) / 2) +
      Real.cos (toRadians lat2) * Real.cos (toRadians lat1) *
        (Real.sin (toRadians (lng1 - lng2) / 2) * Real.sin (toRadians (lng1 - lng2) / 2)) := by
  rw [toRadians_sub_anticomm lat1 lat2, toRadians_sub_anticomm lng1 lng2,
    neg_div, neg_div, Real.sin_neg, Real.sin_neg]
  ring

lemma haversineDistance_comm (lat1 lng1 lat2 lng2 : ℝ) :
    haversineDistance lat1 lng1 lat2 lng2 = haversineDistance lat2 lng2 lat1 lng1 := by
  simp only [haversineDistance]
  rw [haversine_arg_symm]

lemma haversineDistance_nonneg (lat1 lng1 lat2 lng2 : ℝ) :
    0 ≤ haversineDistance lat1 lng1 lat2 lng2 := by
  simp only [haversineDistance]
  have h1 : (0:ℝ) ≤ EARTH_RADIUS_METERS := by unfold EARTH_RADIUS_METERS; norm_num
  exact mul_nonneg h1 (mul_nonneg (by norm_num) (atan2_nonneg (Real.sqrt_nonneg _)))

lemma haversineDistance_self (lat lng : ℝ) :
    haversineDistance lat lng lat lng = 0 := by
  simp only [haversineDistance]
  have hz : toRadians (lat - lat) = 0 := by unfold toRadians; ring
  have hz' : toRadians (lng - lng) = 0 := by unfold toRadians; ring
  rw [hz, hz']
  simp only [zero_div, Real.sin_zero, mul_zero, zero_mul, zero_add, add_zero, sub_zero,
    Real.sqrt_zero, Real.sqrt_one]
  have : atan2 0 1 = 0 := by
    unfold atan2
    rw [if_pos (by norm_num : (0:ℝ) < 1)]
    simp [Real.arctan_zero]
  rw [this]
  ring

/-- C9: for all coordinate pairs, `haversineDistance` is symmetric,
non-negative, and zero on identical coordinates. -/
theorem C9_haversine_symm_nonneg_self (lat1 lng1 lat2 lng2 : ℝ) :
    haversineDistance lat1 lng1 lat2 lng2 = haversineDistance lat2 lng2 lat1 lng1 ∧
    0 ≤ haversineDistance lat1 lng1 lat2 lng2 ∧
    haversineDistance lat1 lng1 lat1 lng1 = 0 :=
  ⟨haversineDistance_comm lat1 lng1 lat2 lng2,
   haversineDistance_nonneg lat1 lng1 lat2 lng2,
   haversineDistance_self lat1 lng1⟩

end Geo

namespace Grouper

/-- Incident status enum from `src/models` (`active`, `resolved`, `archived`). -/
inductive IncidentStatus where
  | active
  | resolved
  | archived
deriving DecidableEq, Repr

/-- Video (stream) status enum from `src/models` (`live`, `ended`, `recorded`). -/
inductive VideoStatus where
  | live
  | ended
  | recorded
deriving DecidableEq, Repr

/-- An `incidents` row. `startedAt` is milliseconds since epoch
(`Date.getTime()`); `radius` is nullable as in the schema. -/
structure Incident where
  id : Nat
  lat : ℝ
  lng : ℝ
  radius : Option ℝ
  status : IncidentStatus
  startedAt : Int
  currentState : Option String

/-- A `videos` row. -/
structure Video where
  id : String
  incidentId : Option Nat
  status : VideoStatus
  lat : ℝ
  lng : ℝ
  startedAt : Int
  endedAt : Option Int
  videoUrl : Option String

/-- `VideoLocation` from `src/services/incidentGrouper.ts`. -/
structure VideoLocation where
  lat : ℝ
  lng : ℝ
  startedAt : Int

/-- Injected configuration (`INCIDENT_TIME_WINDOW_HOURS`,
`INCIDENT_RADIUS_METERS` from `src/config/env.ts`). -/
structure GrouperConfig where
  timeWindowHours : Int
  radiusMeters : ℝ

/-- The persistence collaborator's visible state: the `incidents` and
`videos` tables, plus the id the next inserted incident row receives. -/
structure DbState where
  incidents : List Incident
  videos : List Video
  nextIncidentId : Nat

/- `findMatchingIncident` from `src/services/incidentGrouper.ts`:
select active incidents with `startedAt ≥ startTime − window`, then
return the first within radius (`incident.radius ?? INCIDENT_RADIUS_METERS`). -/
open Classical in
noncomputable def findMatchingIncident (cfg : GrouperConfig) (s : DbState)
    (location : VideoLocation) : Option Incident :=
  let timeWindowStart : Int :=
    location.startedAt - cfg.timeWindowHours * 60 * 60 * 1000
  let activeIncidents := s.incidents.filter fun inc =>
    inc.status = IncidentStatus.active ∧ timeWindowStart ≤ inc.startedAt
  activeIncidents.find? fun inc =>
    Geo.isWithinRadius location.lat location.lng inc.lat inc.lng
      (inc.radius.getD cfg.radiusMeters)

/-- The row `createIncident` inserts: anchored at the call's location,
status `active`, radius `INCIDENT_RADIUS_METERS`, `currentState: null`. -/
def newIncidentOf (cfg : GrouperConfig) (s : DbState) (location : VideoLocation) : Incident :=
  { id := s.nextIncidentId
    lat := location.lat
    lng := location.lng
    radius := some cfg.radiusMeters
    status := IncidentStatus.active
    startedAt := location.startedAt
    currentState := none }

/-- `createIncident` from `src/services/incidentGrouper.ts`: insert a new
active incident and return it. -/
def createIncident (cfg : GrouperConfig) (s : DbState) (location : VideoLocation) :
    Incident × DbState :=
  let created := newIncidentOf cfg s location
  (created,
    { s with
      incidents := s.incidents ++ [created]
      nextIncidentId := s.nextIncidentId + 1 })

/-- The `db.update(videos).set({incidentId}).where(eq(videos.id, videoId))`
step of `assignVideoToIncident`. -/
def updateVideoIncident (s : DbState) (videoId : String) (incId : Nat) : DbState :=
  { s with
    videos := s.videos.map fun v =>
      if v.id = videoId then { v with incidentId := some incId } else v }

/-- `assignVideoToIncident` from `src/services/incidentGrouper.ts`:
find a matching incident or create one, then point the video at it. -/
noncomputable def assignVideoToIncident (cfg : GrouperConfig) (s : DbState)
    (videoId : String) (lat lng : ℝ) (startedAt : Int) : Nat × DbState :=
  let location : VideoLocation := ⟨lat, lng, startedAt⟩
  match findMatchingIncident cfg s location with
  | some incident => (incident.id, updateVideoIncident s videoId incident.id)
  | none =>
    let (incident, s1) := createIncident cfg s location
    (incident.id, updateVideoIncident s1 videoId incident.id)

/-- The matching criterion of `findMatchingIncident`, as a predicate on
one incident: active, inside the time window, inside the radius. -/
def incidentMatches (cfg : GrouperConfig) (location : VideoLocation) (inc : Incident) : Prop :=
  inc.status = IncidentStatus.active ∧
  location.startedAt - cfg.timeWindowHours * 60 * 60 * 1000 ≤ inc.startedAt ∧
  Geo.isWithinRadius location.lat location.lng inc.lat inc.lng
    (inc.radius.getD cfg.radiusMeters)

/-- One `assign` call of the claimed sequence. -/
structure AssignCall where
  videoId : String
  lat : ℝ
  lng : ℝ
  startedAt : Int

/-- A sequence of `assign` calls evaluated sequentially against the
persistence state. -/
noncomputable def assignSeq (cfg : GrouperConfig) (s : DbState) :
    List AssignCall → DbState
  | [] => s
  | c :: cs =>
      assignSeq cfg (assignVideoToIncident cfg s c.videoId c.lat c.lng c.startedAt).2 cs

end Grouper

namespace Grouper

lemma findMatching_spec (cfg : GrouperConfig) (s : DbState) (loc : VideoLocation) :
    (findMatchingIncident cfg s loc = none →
      ∀ inc ∈ s.incidents, ¬ incidentMatches cfg loc inc) ∧
    (∀ inc2, findMatchingIncident cfg s loc = some inc2 →
      inc2 ∈ s.incidents ∧ incidentMatches cfg loc inc2) := by
  constructor
  · intro hnone inc hmem hm
    simp only [findMatchingIncident] at hnone
    rw [List.find?_eq_none] at hnone
    have hmemf : inc ∈ s.incidents.filter fun inc =>
        decide (inc.status = IncidentStatus.active ∧
          loc.startedAt - cfg.timeWindowHours * 60 * 60 * 1000 ≤ inc.startedAt) :=
      List.mem_filter.mpr ⟨hmem, by
        simp only [decide_eq_true_eq]
        exact ⟨hm.1, hm.2.1⟩⟩
    have hcontra := hnone inc hmemf
    simp only [decide_eq_true_eq] at hcontra
    exact hcontra hm.2.2
  · intro inc2 hsome
    simp only [findMatchingIncident] at hsome
    have hmemf := List.mem_of_find?_eq_some hsome
    have hpred := List.find?_some hsome
    rw [List.mem_filter] at hmemf
    simp only [decide_eq_true_eq] at hmemf hpred
    exact ⟨hmemf.1, hmemf.2.1, hmemf.2.2, hpred⟩

lemma assign_matched (cfg : GrouperConfig) (s : DbState) (videoId : String)
    (lat lng : ℝ) (startedAt : Int)
    (h : ∃ inc ∈ s.incidents, incidentMatches cfg ⟨lat, lng, startedAt⟩ inc) :
    (assignVideoToIncident cfg s videoId lat lng startedAt).2.incidents = s.incidents ∧
    (assignVideoToIncident cfg s videoId lat lng startedAt).2.nextIncidentId
        = s.nextIncidentId ∧
    (assignVideoToIncident cfg s videoId lat lng startedAt).1
        ∈ s.incidents.map Incident.id := by
  cases hfind : findMatchingIncident cfg s ⟨lat, lng, startedAt⟩ with
  | none =>
    exfalso
    obtain ⟨inc, hmem, hm⟩ := h
    exact (findMatching_spec cfg s _).1 hfind inc hmem hm
  | some inc2 =>
    have h2 := (findMatching_spec cfg s _).2 inc2 hfind
    refine ⟨?_, ?_, ?_⟩
    · simp only [assignVideoToIncident, hfind, updateVideoIncident]
    · simp only [assignVideoToIncident, hfind, updateVideoIncident]
    · simp only [assignVideoToIncident, hfind]
      exact List.mem_map_of_mem _ h2.1

lemma assign_unmatched (cfg : GrouperConfig) (s : DbState) (videoId : String)
    (lat lng : ℝ) (startedAt : Int)
    (h : ∀ inc ∈ s.incidents, ¬ incidentMatches cfg ⟨lat, lng, startedAt⟩ inc) :
    (assignVideoToIncident cfg s videoId lat lng startedAt).2.incidents
        = s.incidents ++ [newIncidentOf cfg s ⟨lat, lng, startedAt⟩] ∧
    (assignVideoToIncident cfg s videoId lat lng startedAt).1 = s.nextIncidentId := by
  have hnone : findMatchingIncident cfg s ⟨lat, lng, startedAt⟩ = none := by
    cases hfind : findMatchingIncident cfg s ⟨lat, lng, startedAt⟩ with
    | none => rfl
    | some inc2 =>
      have h2 := (findMatching_spec cfg s _).2 inc2 hfind
      exact absurd h2.2 (h inc2 h2.1)
  refine ⟨?_, ?_⟩ <;>
    simp only [assignVideoToIncident, hnone, createIncident, updateVideoIncident,
      newIncidentOf]

lemma fresh_id_not_mem (s : DbState)
    (hwf : ∀ inc ∈ s.incidents, inc.id < s.nextIncidentId) :
    s.nextIncidentId ∉ s.incidents.map Incident.id := by
  intro hmem
  obtain ⟨inc, hinc, hid⟩ := List.mem_map.mp hmem
  exact absurd hid (Nat.ne_of_lt (hwf inc hinc))

lemma assignSeq_no_create (cfg : GrouperConfig) (anchor : Incident)
    (cs : List AssignCall) :
    ∀ s : DbState, anchor ∈ s.incidents →
    (∀ c ∈ cs, incidentMatches cfg ⟨c.lat, c.lng, c.startedAt⟩ anchor) →
    (assignSeq cfg s cs).incidents = s.incidents := by
  induction cs with
  | nil => intro s _ _; rfl
  | cons c cs ih =>
    intro s hmem hall
    have hstep := assign_matched cfg s c.videoId c.lat c.lng c.startedAt
      ⟨anchor, hmem, hall c (List.mem_cons_self c cs)⟩
    have hrec := ih (assignVideoToIncident cfg s c.videoId c.lat c.lng c.startedAt).2
      (hstep.1.symm ▸ hmem)
      (fun c2 hc2 => hall c2 (List.mem_cons_of_mem c hc2))
    calc (assignSeq cfg s (c :: cs)).incidents
        = (assignSeq cfg (assignVideoToIncident cfg s c.videoId c.lat c.lng
            c.startedAt).2 cs).incidents := rfl
      _ = (assignVideoToIncident cfg s c.videoId c.lat c.lng c.startedAt).2.incidents :=
          hrec
      _ = s.incidents := hstep.1

/-- C1: evaluated sequentially against the persistence state, an assign
call matching an existing active incident (within radius and the time
window) is assigned an existing incident and creates none; a call
matching no existing active incident creates one distinct new incident;
hence a whole same-cluster sequence creates at most one incident
(exactly one when the first call opens the cluster). -/
theorem C1_assign_cluster_at_most_one (cfg : GrouperConfig) (s : DbState) :
    (∀ videoId lat lng startedAt,
      (∃ inc ∈ s.incidents, incidentMatches cfg ⟨lat, lng, startedAt⟩ inc) →
      (assignVideoToIncident cfg s videoId lat lng startedAt).2.incidents = s.incidents ∧
      (assignVideoToIncident cfg s videoId lat lng startedAt).1
          ∈ s.incidents.map Incident.id) ∧
    (∀ videoId lat lng startedAt,
      (∀ inc ∈ s.incidents, ¬ incidentMatches cfg ⟨lat, lng, startedAt⟩ inc) →
      (∀ inc ∈ s.incidents, inc.id < s.nextIncidentId) →
      (assignVideoToIncident cfg s videoId lat lng startedAt).2.incidents
          = s.incidents ++ [newIncidentOf cfg s ⟨lat, lng, startedAt⟩] ∧
      (assignVideoToIncident cfg s videoId lat lng startedAt).1 = s.nextIncidentId ∧
      s.nextIncidentId ∉ s.incidents.map Incident.id) ∧
    (∀ c0 cs,
      (∀ inc ∈ s.incidents, ¬ incidentMatches cfg ⟨c0.lat, c0.lng, c0.startedAt⟩ inc) →
      (∀ c ∈ cs, incidentMatches cfg ⟨c.lat, c.lng, c.startedAt⟩
          (newIncidentOf cfg s ⟨c0.lat, c0.lng, c0.startedAt⟩)) →
      (assignSeq cfg s (c0 :: cs)).incidents.length = s.incidents.length + 1) := by
  refine ⟨?_, ?_, ?_⟩
  · intro videoId lat lng startedAt h
    have hstep := assign_matched cfg s videoId lat lng startedAt h
    exact ⟨hstep.1, hstep.2.2⟩
  · intro videoId lat lng startedAt h hwf
    have hstep := assign_unmatched cfg s videoId lat lng startedAt h
    exact ⟨hstep.1, hstep.2, fresh_id_not_mem s hwf⟩
  · intro c0 cs h0 hcs
    have hstep := assign_unmatched cfg s c0.videoId c0.lat c0.lng c0.startedAt h0
    have hanchor : newIncidentOf cfg s ⟨c0.lat, c0.lng, c0.startedAt⟩
        ∈ (assignVideoToIncident cfg s c0.videoId c0.lat c0.lng c0.startedAt).2.incidents := by
      rw [hstep.1]
      exact List.mem_append_right _ (List.mem_singleton.mpr rfl)
    have hseq := assignSeq_no_create cfg
      (newIncidentOf cfg s ⟨c0.lat, c0.lng, c0.startedAt⟩) cs
      (assignVideoToIncident cfg s c0.videoId c0.lat c0.lng c0.startedAt).2 hanchor hcs
    calc (assignSeq cfg s (c0 :: cs)).incidents.length
        = (assignVideoToIncident cfg s c0.videoId c0.lat c0.lng
            c0.startedAt).2.incidents.length := by rw [show (assignSeq cfg s (c0 :: cs)) =
              assignSeq cfg (assignVideoToIncident cfg s c0.videoId c0.lat c0.lng
                c0.startedAt).2 cs from rfl, hseq]
      _ = (s.incidents ++ [newIncidentOf cfg s ⟨c0.lat, c0.lng, c0.startedAt⟩]).length := by
            rw [hstep.1]
      _ = s.incidents.length + 1 := by simp

/-- Concrete configuration for witnesses: 1-hour window, 100 m radius
(the defaults in `src/config/env.ts`). -/
def cfg0 : GrouperConfig := ⟨1, 100⟩

/-- Empty database for witnesses. -/
def db0 : DbState := ⟨[], [], 0⟩

/-- First witness call: video `v1` at the origin at time 0. -/
def c0w : AssignCall := ⟨"v1", 0, 0, 0⟩

/-- Second witness call: video `v2` at the same location and time. -/
def c1w : AssignCall := ⟨"v2", 0, 0, 0⟩

lemma c1w_matches_anchor :
    ∀ c ∈ [c1w], incidentMatches cfg0 ⟨c.lat, c.lng, c.startedAt⟩
      (newIncidentOf cfg0 db0 ⟨c0w.lat, c0w.lng, c0w.startedAt⟩) := by
  intro c hc
  rw [List.mem_singleton] at hc
  subst hc
  refine ⟨rfl, ?_, ?_⟩
  · simp only [newIncidentOf, cfg0, c0w, c1w, db0]
    norm_num
  · simp only [newIncidentOf, cfg0, c0w, c1w, db0, Option.getD_some]
    show Geo.isWithinRadius 0 0 0 0 100
    unfold Geo.isWithinRadius
    rw [Geo.haversineDistance_self]
    norm_num

/-- Witness for C1: two same-cluster calls on an empty database create
exactly one incident. -/
theorem C1_witness :
    (∀ inc ∈ db0.incidents,
      ¬ incidentMatches cfg0 ⟨c0w.lat, c0w.lng, c0w.startedAt⟩ inc) ∧
    (assignSeq cfg0 db0 [c0w, c1w]).incidents.length = db0.incidents.length + 1 := by
  have h0 : ∀ inc ∈ db0.incidents,
      ¬ incidentMatches cfg0 ⟨c0w.lat, c0w.lng, c0w.startedAt⟩ inc := by
    intro inc hmem
    exact absurd hmem (List.not_mem_nil inc)
  exact ⟨h0, (C1_assign_cluster_at_most_one cfg0 db0).2.2 c0w [c1w] h0 c1w_matches_anchor⟩

end Grouper

namespace Grouper

/-- Result record of `ensureVideoWithIncident`. -/
structure EnsureResult where
  videoId : String
  incidentId : Nat
  isNewVideo : Bool

/-- Failure injection for the persistence collaborator: each database
operation consumes one unit of fuel; the operation attempted with zero
fuel fails with a transient persistence error, surfacing the state
committed so far. -/
def tick (fuel : Nat) (s : DbState) : Except DbState Nat :=
  match fuel with
  | 0 => Except.error s
  | Nat.succ n => Except.ok n

/-- The video row inserted by `ensureVideoWithIncident` for a fresh id:
`status` defaults to `live`, no `videoUrl`, no incident yet. -/
def newVideoRow (videoId : String) (lat lng : ℝ) (startedAt : Int) : Video :=
  { id := videoId
    incidentId := none
    status := VideoStatus.live
    lat := lat
    lng := lng
    startedAt := startedAt
    endedAt := none
    videoUrl := none }

/-- `assignVideoToIncident` with injected persistence failures: the
incident select, the incident insert (when creating) and the video
update are each a fallible database operation, committed in source
order. -/
noncomputable def assignVideoToIncidentF (cfg : GrouperConfig) (s : DbState)
    (videoId : String) (lat lng : ℝ) (startedAt : Int) (fuel : Nat) :
    Except DbState (Nat × DbState × Nat) :=
  match tick fuel s with
  | Except.error e => Except.error e
  | Except.ok f1 =>
    match findMatchingIncident cfg s ⟨lat, lng, startedAt⟩ with
    | some incident =>
      match tick f1 s with
      | Except.error e => Except.error e
      | Except.ok f2 =>
        Except.ok (incident.id, updateVideoIncident s videoId incident.id, f2)
    | none =>
      match tick f1 s with
      | Except.error e => Except.error e
      | Except.ok f2 =>
        match createIncident cfg s ⟨lat, lng, startedAt⟩ with
        | (incident, s1) =>
          match tick f2 s1 with
          | Except.error e => Except.error e
          | Except.ok f3 =>
            Except.ok (incident.id, updateVideoIncident s1 videoId incident.id, f3)

/-- `ensureVideoWithIncident` from `src/services/incidentGrouper.ts` with
injected persistence failures: select the video; if present with an
incident, return it; if present without one, assign; otherwise insert
the video (committed on its own) and then assign. -/
noncomputable def ensureVideoWithIncidentF (cfg : GrouperConfig) (s : DbState)
    (videoId : String) (lat lng : ℝ) (startedAt : Int) (fuel : Nat) :
    Except DbState (EnsureResult × DbState) :=
  match tick fuel s with
  | Except.error e => Except.error e
  | Except.ok f1 =>
    match s.videos.find? fun v => v.id = videoId with
    | some existingVideo =>
      match existingVideo.incidentId with
      | some incId => Except.ok (⟨existingVideo.id, incId, false⟩, s)
      | none =>
        match assignVideoToIncidentF cfg s existingVideo.id existingVideo.lat
            existingVideo.lng existingVideo.startedAt f1 with
        | Except.error e => Except.error e
        | Except.ok (incidentId, s2, _) =>
          Except.ok (⟨existingVideo.id, incidentId, false⟩, s2)
    | none =>
      match tick f1 s with
      | Except.error e => Except.error e
      | Except.ok f2 =>
        let s1 : DbState :=
          { s with videos := s.videos ++ [newVideoRow videoId lat lng startedAt] }
        match assignVideoToIncidentF cfg s1 videoId lat lng startedAt f2 with
        | Except.error e => Except.error e
        | Except.ok (incidentId, s2, _) =>
          Except.ok (⟨videoId, incidentId, true⟩, s2)

/-- The state committed when a fresh-video `ensureVideoWithIncident` call
fails at the incident-select step: the video row is committed with
`incidentId` null. -/
def dbOrphanVideo : DbState :=
  { incidents := []
    videos := [newVideoRow "v1" 0 0 0]
    nextIncidentId := 0 }

/-- Counterexample to C7: on an empty database, `ensureVideoWithIncident`
for a fresh video with fuel for exactly two database operations (video
select, video insert) fails at the incident select and leaves a
committed video record whose `incidentId` is null — stream creation is
not atomic with incident assignment. -/
theorem C7_counterexample :
    ensureVideoWithIncidentF cfg0 db0 "v1" 0 0 0 2 = Except.error dbOrphanVideo ∧
    dbOrphanVideo.videos.map Video.incidentId = [none] :=
  ⟨rfl, rfl⟩

end Grouper

namespace Grouper

lemma updateVideoIncident_all (s : DbState) (videoId : String) (incId : Nat) :
    ∀ v ∈ (updateVideoIncident s videoId incId).videos,
      v.id = videoId → v.incidentId = some incId := by
  intro v hv hid
  simp only [updateVideoIncident, List.mem_map] at hv
  obtain ⟨w, hw, hmap⟩ := hv
  by_cases h : w.id = videoId
  · rw [if_pos h] at hmap
    subst hmap
    rfl
  · rw [if_neg h] at hmap
    subst hmap
    exact absurd hid h

lemma updateVideoIncident_mem (s : DbState) (videoId : String) (incId : Nat)
    (h : ∃ v ∈ s.videos, v.id = videoId) :
    ∃ v ∈ (updateVideoIncident s videoId incId).videos, v.id = videoId := by
  obtain ⟨v, hv, hid⟩ := h
  refine ⟨{ v with incidentId := some incId }, ?_, hid⟩
  simp only [updateVideoIncident, List.mem_map]
  exact ⟨v, hv, by rw [if_pos hid]⟩

lemma assignF_ok (cfg : GrouperConfig) (s : DbState) (videoId : String)
    (lat lng : ℝ) (startedAt : Int) (fuel : Nat) (incId : Nat) (s2 : DbState) (f : Nat)
    (h : assignVideoToIncidentF cfg s videoId lat lng startedAt fuel
        = Except.ok (incId, s2, f)) :
    (∀ v ∈ s2.videos, v.id = videoId → v.incidentId = some incId) ∧
    ((∃ v ∈ s.videos, v.id = videoId) → ∃ v ∈ s2.videos, v.id = videoId) := by
  cases fuel with
  | zero => simp [assignVideoToIncidentF, tick] at h
  | succ n =>
    cases hfind : findMatchingIncident cfg s ⟨lat, lng, startedAt⟩ with
    | some incident =>
      cases n with
      | zero => simp [assignVideoToIncidentF, tick, hfind] at h
      | succ m =>
        simp only [assignVideoToIncidentF, tick, hfind, Except.ok.injEq,
          Prod.mk.injEq] at h
        obtain ⟨h1, h2, _⟩ := h
        subst h1
        subst h2
        exact ⟨updateVideoIncident_all s videoId incident.id,
          updateVideoIncident_mem s videoId incident.id⟩
    | none =>
      cases n with
      | zero => simp [assignVideoToIncidentF, tick, hfind] at h
      | succ m =>
        cases m with
        | zero => simp [assignVideoToIncidentF, tick, hfind, createIncident] at h
        | succ k =>
          simp only [assignVideoToIncidentF, tick, hfind, createIncident,
            Except.ok.injEq, Prod.mk.injEq] at h
          obtain ⟨h1, h2, _⟩ := h
          subst h1
          subst h2
          constructor
          · exact updateVideoIncident_all _ videoId _
          · intro hex
            exact updateVideoIncident_mem _ videoId _ hex

/-- C7 (amended): `ensureVideoWithIncident` is not atomic — a
persistence failure between the video insert and the incident
assignment leaves a committed video row without an incident
(`C7_counterexample`) — but every successful call returns with the
video committed and pointing at the returned incident. -/
theorem C7_amended_success_assigns (cfg : GrouperConfig) (s : DbState)
    (videoId : String) (lat lng : ℝ) (startedAt : Int) (fuel : Nat)
    (r : EnsureResult) (s2 : DbState)
    (hnodup : (s.videos.map Video.id).Nodup)
    (h : ensureVideoWithIncidentF cfg s videoId lat lng startedAt fuel
        = Except.ok (r, s2)) :
    r.videoId = videoId ∧
    (∃ v ∈ s2.videos, v.id = videoId) ∧
    (∀ v ∈ s2.videos, v.id = videoId → v.incidentId = some r.incidentId) := by
  cases fuel with
  | zero => simp [ensureVideoWithIncidentF, tick] at h
  | succ n =>
    cases hfindv : s.videos.find? (fun v => v.id = videoId) with
    | some existingVideo =>
      have hid : existingVideo.id = videoId := by
        have := List.find?_some hfindv
        simpa using this
      have hmemv : existingVideo ∈ s.videos := List.mem_of_find?_eq_some hfindv
      cases hinc : existingVideo.incidentId with
      | some incId =>
        simp only [ensureVideoWithIncidentF, tick, hfindv, hinc, Except.ok.injEq,
          Prod.mk.injEq] at h
        obtain ⟨h1, h2⟩ := h
        subst h2
        refine ⟨by rw [← h1]; exact hid, ⟨existingVideo, hmemv, hid⟩, ?_⟩
        intro v hv hvid
        have hveq : v = existingVideo :=
          List.inj_on_of_nodup_map hnodup hv hmemv (by rw [hvid, hid])
        subst hveq
        rw [hinc, ← h1]
      | none =>
        simp only [ensureVideoWithIncidentF, tick, hfindv, hinc] at h
        cases hassign : assignVideoToIncidentF cfg s existingVideo.id existingVideo.lat
            existingVideo.lng existingVideo.startedAt n with
        | error e => rw [hassign] at h; simp at h
        | ok res =>
          obtain ⟨incId2, s3, f3⟩ := res
          rw [hassign] at h
          simp only [Except.ok.injEq, Prod.mk.injEq] at h
          obtain ⟨h1, h2⟩ := h
          subst h2
          have ha := assignF_ok cfg s existingVideo.id existingVideo.lat
            existingVideo.lng existingVideo.startedAt n incId2 s3 f3 hassign
          refine ⟨by rw [← h1]; exact hid, ?_, ?_⟩
          · obtain ⟨v, hv, hvid⟩ := ha.2 ⟨existingVideo, hmemv, rfl⟩
            exact ⟨v, hv, by rw [hvid]; exact hid⟩
          · intro v hv hvid
            rw [← h1]
            exact ha.1 v hv (by rw [hvid, ← hid])
    | none =>
      cases n with
      | zero => simp [ensureVideoWithIncidentF, tick, hfindv] at h
      | succ m =>
        simp only [ensureVideoWithIncidentF, tick, hfindv] at h
        cases hassign : assignVideoToIncidentF cfg
            { s with videos := s.videos ++ [newVideoRow videoId lat lng startedAt] }
            videoId lat lng startedAt m with
        | error e => rw [hassign] at h; simp at h
        | ok res =>
          obtain ⟨incId2, s3, f3⟩ := res
          rw [hassign] at h
          simp only [Except.ok.injEq, Prod.mk.injEq] at h
          obtain ⟨h1, h2⟩ := h
          subst h2
          have ha := assignF_ok cfg
            { s with videos := s.videos ++ [newVideoRow videoId lat lng startedAt] }
            videoId lat lng startedAt m incId2 s3 f3 hassign
          refine ⟨by rw [← h1], ?_, ?_⟩
          · exact ha.2 ⟨newVideoRow videoId lat lng startedAt,
              List.mem_append_right _ (List.mem_singleton.mpr rfl), rfl⟩
          · intro v hv hvid
            rw [← h1]
            exact ha.1 v hv hvid

/-- The result of the successful witness run of
`ensureVideoWithIncidentF`. -/
def r0ensure : EnsureResult := ⟨"v1", 0, true⟩

/-- The database after the successful witness run: one incident, one
video assigned to it. -/
def dbAssigned : DbState :=
  { incidents := [{ id := 0
                    lat := 0
                    lng := 0
                    radius := some 100
                    status := IncidentStatus.active
                    startedAt := 0
                    currentState := none }]
    videos := [{ id := "v1"
                 incidentId := some 0
                 status := VideoStatus.live
                 lat := 0
                 lng := 0
                 startedAt := 0
                 endedAt := none
                 videoUrl := none }]
    nextIncidentId := 1 }

/-- Witness for the amended C7: a successful fresh-video call commits
the video with the returned incident assigned. -/
theorem C7_witness :
    (ensureVideoWithIncidentF cfg0 db0 "v1" 0 0 0 5 = Except.ok (r0ensure, dbAssigned)) ∧
    (∀ v ∈ dbAssigned.videos, v.id = "v1" → v.incidentId = some r0ensure.incidentId) :=
  ⟨rfl,
    (C7_amended_success_assigns cfg0 db0 "v1" 0 0 0 5 r0ensure dbAssigned
      (by simp [db0]) rfl).2.2⟩

end Grouper

namespace SnapBuf

/-- A `snapshots` row as buffered (the buffer treats it opaquely). -/
structure Snapshot where
  id : Nat
  videoId : String
  timestamp : Int
deriving DecidableEq, Repr

/-- `IncidentBuffer` from `src/services/snapshotBuffer.ts`: the buffered
snapshots plus the single pending `setTimeout` handle, modelled as the
scheduled duration in ms (the source stores at most one handle and never
overwrites a live one). -/
structure IncidentBuffer where
  snapshots : List Snapshot
  timer : Option Nat
deriving DecidableEq, Repr

/-- Constructor arguments of `SnapshotBuffer`
(`SNAPSHOT_BATCH_WINDOW_MS`, `SNAPSHOT_BATCH_MIN_SIZE`,
`SNAPSHOT_BATCH_MAX_SIZE` defaults). -/
structure BufConfig where
  batchWindowMs : Nat
  minBatchSize : Nat
  maxBatchSize : Nat

/-- The `buffers: Map<string, IncidentBuffer>` field, as an
insertion-ordered association list with unique keys. -/
structure BufState where
  buffers : List (String × IncidentBuffer)
deriving DecidableEq, Repr

/-- `Map.get` on the underlying entry list: the entry with the key, if
any (keys are unique, as in a JS `Map`). -/
def getBufL : List (String × IncidentBuffer) → String → Option IncidentBuffer
  | [], _ => none
  | (k1, b1) :: rest, k => if k1 = k then some b1 else getBufL rest k

/-- `Map.get`. -/
def getBuf (st : BufState) (incidentId : String) : Option IncidentBuffer :=
  getBufL st.buffers incidentId

/-- `Map.set` on the underlying entry list: replace in place or append. -/
def setBufL : List (String × IncidentBuffer) → String → IncidentBuffer →
    List (String × IncidentBuffer)
  | [], k, b => [(k, b)]
  | (k1, b1) :: rest, k, b =>
    if k1 = k then (k, b) :: rest else (k1, b1) :: setBufL rest k b

/-- `Map.set`. -/
def setBuf (st : BufState) (incidentId : String) (b : IncidentBuffer) : BufState :=
  ⟨setBufL st.buffers incidentId b⟩

/-- `getBufferSize` from `src/services/snapshotBuffer.ts`. -/
def getBufferSize (st : BufState) (incidentId : String) : Nat :=
  ((getBuf st incidentId).map fun b => b.snapshots.length).getD 0

/-- `peek` from `src/services/snapshotBuffer.ts`. -/
def peek (st : BufState) (incidentId : String) : List Snapshot :=
  ((getBuf st incidentId).map fun b => b.snapshots).getD []

/-- The pending timer of a key's buffer, if any. -/
def timerOf (st : BufState) (incidentId : String) : Option Nat :=
  (getBuf st incidentId).bind fun b => b.timer

/-- `flush` from `src/services/snapshotBuffer.ts`: no-op when the buffer
is missing or empty, skipped when below `minBatchSize` and not forced;
otherwise cancel the pending timer, clear the buffer, and hand the
snapshots to the batch callback (whose errors are caught — see
`flushCB`). Returns the flushed snapshots. -/
def flush (cfg : BufConfig) (st : BufState) (incidentId : String) (force : Bool) :
    BufState × List Snapshot :=
  match getBuf st incidentId with
  | none => (st, [])
  | some buffer =>
    if buffer.snapshots.length = 0 then (st, [])
    else if force = false ∧ buffer.snapshots.length < cfg.minBatchSize then (st, [])
    else
      (setBuf st incidentId { snapshots := [], timer := none }, buffer.snapshots)

/-- `flush` together with the awaited `batchCallback` invocation: the
callback receives exactly the handed-off batch; its failure is caught
and surfaced only as a logged error string. -/
def flushCB (cfg : BufConfig) (cb : String → List Snapshot → Except String Unit)
    (st : BufState) (incidentId : String) (force : Bool) :
    (BufState × List Snapshot) × Option String :=
  let r := flush cfg st incidentId force
  if r.2.isEmpty then (r, none)
  else
    match cb incidentId r.2 with
    | Except.ok _ => (r, none)
    | Except.error e => (r, some e)

/-- `add` from `src/services/snapshotBuffer.ts`: create the buffer if
missing, append the snapshot, start the window timer if none is
running, then flush immediately if the buffer reached `maxBatchSize`.
Returns the flushed batch if the add triggered a flush. -/
def add (cfg : BufConfig) (st : BufState) (incidentId : String) (snapshot : Snapshot) :
    BufState × List Snapshot :=
  let buffer0 := (getBuf st incidentId).getD { snapshots := [], timer := none }
  let buffer1 := { buffer0 with snapshots := buffer0.snapshots ++ [snapshot] }
  let buffer2 :=
    match buffer1.timer with
    | some w => { buffer1 with timer := some w }
    | none => { buffer1 with timer := some cfg.batchWindowMs }
  let st1 := setBuf st incidentId buffer2
  if cfg.maxBatchSize ≤ buffer2.snapshots.length then
    flush cfg st1 incidentId false
  else
    (st1, [])

/-- `timerFlush` from `src/services/snapshotBuffer.ts`, run when the
pending timer fires: clear the timer reference; flush if at least
`minBatchSize` snapshots are buffered, otherwise re-arm a timer of the
same `batchWindowMs` duration. -/
def timerFlush (cfg : BufConfig) (st : BufState) (incidentId : String) :
    BufState × List Snapshot :=
  match getBuf st incidentId with
  | none => (st, [])
  | some buffer =>
    let buffer1 : IncidentBuffer := { buffer with timer := none }
    let st1 := setBuf st incidentId buffer1
    if cfg.minBatchSize ≤ buffer1.snapshots.length then
      flush cfg st1 incidentId false
    else
      (setBuf st1 incidentId { buffer1 with timer := some cfg.batchWindowMs }, [])

/-- `flushAll` from `src/services/snapshotBuffer.ts`: force-flush every
key, collecting the flushed batches. -/
def flushAll (cfg : BufConfig) (st : BufState) : BufState × List (String × List Snapshot) :=
  (st.buffers.map Prod.fst).foldl
    (fun acc id =>
      let r := flush cfg acc.1 id true
      (r.1, acc.2 ++ [(id, r.2)]))
    (st, [])

/-- A sequence of `add` calls for one key, collecting the non-empty
flushed batches. -/
def addSeq (cfg : BufConfig) (st : BufState) (incidentId : String) :
    List Snapshot → BufState × List (List Snapshot)
  | [] => (st, [])
  | x :: xs =>
    let r := add cfg st incidentId x
    let rest := addSeq cfg r.1 incidentId xs
    (rest.1, (if r.2.isEmpty then [] else [r.2]) ++ rest.2)

end SnapBuf

namespace SnapBuf

lemma getBufL_setBufL_same (l : List (String × IncidentBuffer)) (k : String)
    (b : IncidentBuffer) : getBufL (setBufL l k b) k = some b := by
  induction l with
  | nil => simp [setBufL, getBufL]
  | cons p rest ih =>
    obtain ⟨k1, b1⟩ := p
    by_cases h : k1 = k
    · simp [setBufL, getBufL, h]
    · simp [setBufL, getBufL, h, ih]

lemma getBufL_setBufL_other (l : List (String × IncidentBuffer)) (k k2 : String)
    (b : IncidentBuffer) (h : k2 ≠ k) :
    getBufL (setBufL l k b) k2 = getBufL l k2 := by
  induction l with
  | nil => simp [setBufL, getBufL, Ne.symm h]
  | cons p rest ih =>
    obtain ⟨k1, b1⟩ := p
    by_cases h1 : k1 = k
    · subst h1
      simp [setBufL, getBufL, Ne.symm h]
    · simp only [setBufL, if_neg h1, getBufL]
      by_cases h2 : k1 = k2
      · simp [h2]
      · simp [h2, ih]

lemma setBufL_setBufL (l : List (String × IncidentBuffer)) (k : String)
    (b b2 : IncidentBuffer) :
    setBufL (setBufL l k b) k b2 = setBufL l k b2 := by
  induction l with
  | nil => simp [setBufL]
  | cons p rest ih =>
    obtain ⟨k1, b1⟩ := p
    by_cases h : k1 = k
    · simp [setBufL, h]
    · simp [setBufL, h, ih]

lemma mem_setBufL (l : List (String × IncidentBuffer)) (k : String)
    (b : IncidentBuffer) (p : String × IncidentBuffer) :
    p ∈ setBufL l k b → p = (k, b) ∨ p ∈ l := by
  induction l with
  | nil => intro h; simpa [setBufL] using h
  | cons q rest ih =>
    obtain ⟨k1, b1⟩ := q
    by_cases h1 : k1 = k
    · intro h
      simp only [setBufL, if_pos h1, List.mem_cons] at h
      rcases h with h | h
      · exact Or.inl h
      · exact Or.inr (List.mem_cons_of_mem _ h)
    · intro h
      simp only [setBufL, if_neg h1, List.mem_cons] at h
      rcases h with h | h
      · exact Or.inr (by simp [h])
      · rcases ih h with h2 | h2
        · exact Or.inl h2
        · exact Or.inr (List.mem_cons_of_mem _ h2)

lemma getBuf_setBuf_same (st : BufState) (k : String) (b : IncidentBuffer) :
    getBuf (setBuf st k b) k = some b :=
  getBufL_setBufL_same st.buffers k b

lemma getBuf_setBuf_other (st : BufState) (k k2 : String) (b : IncidentBuffer)
    (h : k2 ≠ k) : getBuf (setBuf st k b) k2 = getBuf st k2 :=
  getBufL_setBufL_other st.buffers k k2 b h

lemma setBuf_setBuf (st : BufState) (k : String) (b b2 : IncidentBuffer) :
    setBuf (setBuf st k b) k b2 = setBuf st k b2 := by
  unfold setBuf
  rw [setBufL_setBufL]

lemma peek_length (st : BufState) (k : String) :
    (peek st k).length = getBufferSize st k := by
  unfold peek getBufferSize
  cases getBuf st k <;> simp

lemma peek_eq (st : BufState) (k : String) (b : IncidentBuffer)
    (h : getBuf st k = some b) : peek st k = b.snapshots := by
  simp [peek, h]

lemma timerOf_eq (st : BufState) (k : String) (b : IncidentBuffer)
    (h : getBuf st k = some b) : timerOf st k = b.timer := by
  simp [timerOf, h]

lemma getBufferSize_eq (st : BufState) (k : String) (b : IncidentBuffer)
    (h : getBuf st k = some b) : getBufferSize st k = b.snapshots.length := by
  simp [getBufferSize, h]

lemma flush_missing (cfg : BufConfig) (st : BufState) (k : String) (force : Bool)
    (h : getBuf st k = none) : flush cfg st k force = (st, []) := by
  simp only [flush, h]

lemma flush_empty_noop (cfg : BufConfig) (st : BufState) (k : String) (force : Bool)
    (h : getBufferSize st k = 0) : flush cfg st k force = (st, []) := by
  cases hg : getBuf st k with
  | none => simp only [flush, hg]
  | some b =>
    have hlen : b.snapshots.length = 0 := by
      unfold getBufferSize at h
      rw [hg] at h
      simpa using h
    simp only [flush, hg, if_pos hlen]

lemma flush_below_min (cfg : BufConfig) (st : BufState) (k : String)
    (h : getBufferSize st k < cfg.minBatchSize) :
    flush cfg st k false = (st, []) := by
  cases hg : getBuf st k with
  | none => simp only [flush, hg]
  | some b =>
    have hlen : b.snapshots.length < cfg.minBatchSize := by
      unfold getBufferSize at h
      rw [hg] at h
      simpa using h
    by_cases h0 : b.snapshots.length = 0
    · simp only [flush, hg, if_pos h0]
    · simp only [flush, hg, if_neg h0]
      simp [hlen]

lemma flush_proceeds (cfg : BufConfig) (st : BufState) (k : String) (force : Bool)
    (b : IncidentBuffer) (hg : getBuf st k = some b)
    (h0 : b.snapshots.length ≠ 0)
    (hmin : force = true ∨ cfg.minBatchSize ≤ b.snapshots.length) :
    flush cfg st k force = (setBuf st k ⟨[], none⟩, b.snapshots) := by
  have hcond : ¬ (force = false ∧ b.snapshots.length < cfg.minBatchSize) := by
    intro hc
    rcases hmin with hf | hm
    · rw [hf] at hc
      simp at hc
    · exact absurd hc.2 (not_lt.mpr hm)
  simp only [flush, hg, if_neg h0, if_neg hcond]

end SnapBuf

namespace SnapBuf

lemma add_eq (cfg : BufConfig) (st : BufState) (k : String) (x : Snapshot) :
    add cfg st k x =
      if cfg.maxBatchSize ≤ (peek st k).length + 1 then
        flush cfg (setBuf st k
          ⟨peek st k ++ [x], some ((timerOf st k).getD cfg.batchWindowMs)⟩) k false
      else
        (setBuf st k
          ⟨peek st k ++ [x], some ((timerOf st k).getD cfg.batchWindowMs)⟩, []) := by
  cases hg : getBuf st k with
  | none => simp [add, peek, timerOf, hg]
  | some b => cases hb : b.timer <;> simp [add, peek, timerOf, hg, hb]

lemma add_below (cfg : BufConfig) (st : BufState) (k : String) (x : Snapshot)
    (h : getBufferSize st k + 1 < cfg.maxBatchSize) :
    add cfg st k x = (setBuf st k
      ⟨peek st k ++ [x], some ((timerOf st k).getD cfg.batchWindowMs)⟩, []) := by
  rw [add_eq, if_neg (by rw [peek_length]; exact not_le.mpr h)]

lemma add_hits_max (cfg : BufConfig) (st : BufState) (k : String) (x : Snapshot)
    (hminmax : cfg.minBatchSize ≤ cfg.maxBatchSize)
    (h : getBufferSize st k + 1 = cfg.maxBatchSize) :
    add cfg st k x = (setBuf st k ⟨[], none⟩, peek st k ++ [x]) := by
  rw [add_eq, if_pos (by rw [peek_length, h])]
  rw [flush_proceeds cfg _ k false
    ⟨peek st k ++ [x], some ((timerOf st k).getD cfg.batchWindowMs)⟩
    (getBuf_setBuf_same _ _ _)
    (by simp)
    (Or.inr (by simp only []; rw [List.length_append, List.length_singleton,
      peek_length, h]; exact hminmax))]
  rw [setBuf_setBuf]

lemma addSeq_below (cfg : BufConfig) (k : String) :
    ∀ (xs : List Snapshot) (st : BufState),
    getBufferSize st k + xs.length < cfg.maxBatchSize →
    (addSeq cfg st k xs).2 = [] ∧
    peek (addSeq cfg st k xs).1 k = peek st k ++ xs ∧
    (xs = [] ∨ timerOf (addSeq cfg st k xs).1 k
        = some ((timerOf st k).getD cfg.batchWindowMs)) := by
  intro xs
  induction xs with
  | nil =>
    intro st _
    exact ⟨rfl, by simp [addSeq], Or.inl rfl⟩
  | cons x xs ih =>
    intro st h
    have hstep := add_below cfg st k x (by
      have := List.length_cons x xs ▸ h
      omega)
    have hg1 : getBuf (add cfg st k x).1 k
        = some ⟨peek st k ++ [x], some ((timerOf st k).getD cfg.batchWindowMs)⟩ := by
      rw [hstep]
      exact getBuf_setBuf_same _ _ _
    have hpeek1 : peek (add cfg st k x).1 k = peek st k ++ [x] :=
      peek_eq _ _ _ hg1
    have htimer1 : timerOf (add cfg st k x).1 k
        = some ((timerOf st k).getD cfg.batchWindowMs) :=
      timerOf_eq _ _ _ hg1
    have hsize1 : getBufferSize (add cfg st k x).1 k = getBufferSize st k + 1 := by
      rw [← peek_length, hpeek1, List.length_append, List.length_singleton, peek_length]
    have hrec := ih (add cfg st k x).1 (by
      rw [hsize1]
      have := List.length_cons x xs ▸ h
      omega)
    have hbatch : (add cfg st k x).2 = [] := by rw [hstep]
    refine ⟨?_, ?_, ?_⟩
    · simp [addSeq, hbatch, hrec.1]
    · simp only [addSeq]
      rw [hrec.2.1, hpeek1, List.append_assoc]
      rfl
    · right
      simp only [addSeq]
      rcases hrec.2.2 with he | ht
      · subst he
        simp only [addSeq]
        exact htimer1
      · rw [ht, htimer1]
        rfl

/-- C3: on one key, a sequence of adds that brings the buffer to fewer
than `maxBatchSize` snapshots hands nothing to the analysis callback
(no flush before the window timer fires) and leaves everything buffered
with the window timer pending; the add that brings the post-insert size
to `maxBatchSize` immediately flushes exactly the buffered snapshots
and cancels the pending timer. -/
theorem C3_max_size_triggers_flush (cfg : BufConfig) (st : BufState) (k : String) :
    (∀ xs : List Snapshot, getBuf st k = none → xs.length < cfg.maxBatchSize →
      (addSeq cfg st k xs).2 = [] ∧
      peek (addSeq cfg st k xs).1 k = xs ∧
      (xs = [] ∨ timerOf (addSeq cfg st k xs).1 k = some cfg.batchWindowMs)) ∧
    (∀ x : Snapshot, cfg.minBatchSize ≤ cfg.maxBatchSize →
      getBufferSize st k + 1 = cfg.maxBatchSize →
      add cfg st k x = (setBuf st k ⟨[], none⟩, peek st k ++ [x]) ∧
      timerOf (add cfg st k x).1 k = none ∧
      peek (add cfg st k x).1 k = []) := by
  constructor
  · intro xs hg hlen
    have hsize : getBufferSize st k = 0 := by simp [getBufferSize, hg]
    have hpeek : peek st k = [] := by simp [peek, hg]
    have htimer : timerOf st k = none := by simp [timerOf, hg]
    have h := addSeq_below cfg k xs st (by omega)
    refine ⟨h.1, by rw [h.2.1, hpeek]; simp, ?_⟩
    rcases h.2.2 with he | ht
    · exact Or.inl he
    · right
      rw [ht, htimer]
      rfl
  · intro x hmm hsz
    have hstep := add_hits_max cfg st k x hmm hsz
    refine ⟨hstep, ?_, ?_⟩
    · rw [hstep]
      simp [timerOf, getBuf_setBuf_same]
    · rw [hstep]
      simp [peek, getBuf_setBuf_same]

/-- Witness configuration: window 10000 ms, min 2, max 3. -/
def cfgB : BufConfig := ⟨10000, 2, 3⟩

/-- Witness snapshots. -/
def s1B : Snapshot := ⟨1, "v1", 0⟩

/-- Second witness snapshot. -/
def s2B : Snapshot := ⟨2, "v1", 1⟩

/-- Third witness snapshot. -/
def s3B : Snapshot := ⟨3, "v1", 2⟩

/-- Empty buffer state for witnesses. -/
def stB0 : BufState := ⟨[]⟩

/-- Buffer state with two buffered snapshots and a pending timer. -/
def stB2 : BufState := ⟨[("inc1", ⟨[s1B, s2B], some 10000⟩)]⟩

/-- Witness for C3: two adds on an empty key with `maxBatchSize = 3`
flush nothing; one more add on a two-snapshot buffer flushes all three
and cancels the timer. -/
theorem C3_witness :
    (getBuf stB0 "inc1" = none) ∧
    ([s1B, s2B].length < cfgB.maxBatchSize) ∧
    ((addSeq cfgB stB0 "inc1" [s1B, s2B]).2 = []) ∧
    (cfgB.minBatchSize ≤ cfgB.maxBatchSize) ∧
    (getBufferSize stB2 "inc1" + 1 = cfgB.maxBatchSize) ∧
    (add cfgB stB2 "inc1" s3B = (setBuf stB2 "inc1" ⟨[], none⟩, peek stB2 "inc1" ++ [s3B])) :=
  ⟨by decide, by decide,
    ((C3_max_size_triggers_flush cfgB stB0 "inc1").1 [s1B, s2B] (by decide) (by decide)).1,
    by decide, by decide,
    ((C3_max_size_triggers_flush cfgB stB2 "inc1").2 s3B (by decide) (by decide)).1⟩

end SnapBuf

namespace SnapBuf

lemma timerFlush_below (cfg : BufConfig) (st : BufState) (k : String)
    (b : IncidentBuffer) (hg : getBuf st k = some b)
    (h : b.snapshots.length < cfg.minBatchSize) :
    timerFlush cfg st k = (setBuf st k ⟨b.snapshots, some cfg.batchWindowMs⟩, []) := by
  simp only [timerFlush, hg, if_neg (not_le.mpr h)]
  rw [setBuf_setBuf]

/-- C5: a non-forced flush on a buffer below `minBatchSize` (or on a
missing/empty buffer) returns an empty batch and leaves the whole
scheduler state — contents and pending timer — unchanged; a timer fire
below `minBatchSize` flushes nothing and re-arms a timer of the same
`batchWindowMs` duration over the unchanged contents. -/
theorem C5_below_min_noop_and_rearm (cfg : BufConfig) (st : BufState) (k : String) :
    (getBufferSize st k < cfg.minBatchSize → flush cfg st k false = (st, [])) ∧
    (∀ force, getBufferSize st k = 0 → flush cfg st k force = (st, [])) ∧
    (∀ b, getBuf st k = some b → b.snapshots.length < cfg.minBatchSize →
      timerFlush cfg st k = (setBuf st k ⟨b.snapshots, some cfg.batchWindowMs⟩, [])) :=
  ⟨flush_below_min cfg st k,
   fun force h => flush_empty_noop cfg st k force h,
   fun b hg h => timerFlush_below cfg st k b hg h⟩

/-- Buffer state with one buffered snapshot and a pending timer
(below the witness `minBatchSize` of 2). -/
def stB1 : BufState := ⟨[("inc1", ⟨[s1B], some 10000⟩)]⟩

/-- Witness for C5: with one snapshot buffered and `minBatchSize = 2`, a
non-forced flush is a no-op and a timer fire re-arms the same duration. -/
theorem C5_witness :
    (getBufferSize stB1 "inc1" < cfgB.minBatchSize) ∧
    (flush cfgB stB1 "inc1" false = (stB1, [])) ∧
    (getBuf stB1 "inc1" = some ⟨[s1B], some 10000⟩) ∧
    (timerFlush cfgB stB1 "inc1"
      = (setBuf stB1 "inc1" ⟨[s1B], some cfgB.batchWindowMs⟩, [])) :=
  ⟨by decide,
   (C5_below_min_noop_and_rearm cfgB stB1 "inc1").1 (by decide),
   by decide,
   (C5_below_min_noop_and_rearm cfgB stB1 "inc1").2.2 ⟨[s1B], some 10000⟩
     (by decide) (by decide)⟩

lemma flush_result_of_ne (cfg : BufConfig) (st : BufState) (k : String) (force : Bool)
    (h : (flush cfg st k force).2 ≠ []) :
    flush cfg st k force = (setBuf st k ⟨[], none⟩, (flush cfg st k force).2) := by
  cases hg : getBuf st k with
  | none => exact absurd (by rw [flush_missing cfg st k force hg]) h
  | some b =>
    by_cases h0 : b.snapshots.length = 0
    · exact absurd (by rw [flush_empty_noop cfg st k force
        (by rw [getBufferSize_eq st k b hg, h0])]) h
    · by_cases hc : force = false ∧ b.snapshots.length < cfg.minBatchSize
      · have : flush cfg st k force = (st, []) := by
          simp only [flush, hg, if_neg h0, if_pos hc]
        exact absurd (by rw [this]) h
      · have hmin : force = true ∨ cfg.minBatchSize ≤ b.snapshots.length := by
          cases force with
          | true => exact Or.inl rfl
          | false =>
            right
            by_contra hlt
            exact hc ⟨rfl, not_le.mp hlt⟩
        have hp := flush_proceeds cfg st k force b hg h0 hmin
        rw [hp]

/-- C6: a failing analysis callback is caught — the scheduler state and
the returned batch are identical to those of a successful flush, with
the failure surfaced only as a logged error; the handed-off batch is
not requeued (the key's buffer is left cleared with no pending timer,
and an immediate re-flush hands off nothing, so delivery is
at-most-once); an add racing with the in-flight callback lands in the
fresh empty buffer, never in the handed-off batch. -/
theorem C6_callback_failure_isolated (cfg : BufConfig) (st : BufState) (k : String)
    (force : Bool) :
    (∀ cb, (flushCB cfg cb st k force).1 = flush cfg st k force) ∧
    ((flush cfg st k force).2 ≠ [] →
      getBuf (flush cfg st k force).1 k = some ⟨[], none⟩ ∧
      (∀ force2, flush cfg (flush cfg st k force).1 k force2
        = ((flush cfg st k force).1, [])) ∧
      (∀ y : Snapshot, 2 ≤ cfg.maxBatchSize →
        peek (add cfg (flush cfg st k force).1 k y).1 k = [y] ∧
        (add cfg (flush cfg st k force).1 k y).2 = [])) := by
  constructor
  · intro cb
    unfold flushCB
    by_cases he : (flush cfg st k force).2.isEmpty
    · simp [he]
    · simp only [if_neg he]
      cases cb k (flush cfg st k force).2 <;> rfl
  · intro hne
    have hres := flush_result_of_ne cfg st k force hne
    have hg1 : getBuf (flush cfg st k force).1 k = some ⟨[], none⟩ := by
      rw [hres]
      exact getBuf_setBuf_same _ _ _
    have hsz1 : getBufferSize (flush cfg st k force).1 k = 0 :=
      getBufferSize_eq _ _ _ hg1
    refine ⟨hg1, ?_, ?_⟩
    · intro force2
      exact flush_empty_noop cfg _ k force2 hsz1
    · intro y hmax
      have hstep := add_below cfg (flush cfg st k force).1 k y (by omega)
      have hpeek0 : peek (flush cfg st k force).1 k = [] := peek_eq _ _ _ hg1
      have htimer0 : timerOf (flush cfg st k force).1 k = none := timerOf_eq _ _ _ hg1
      rw [hpeek0, htimer0] at hstep
      constructor
      · rw [hstep]
        have := peek_eq (setBuf (flush cfg st k force).1 k
            ⟨[] ++ [y], some (Option.getD none cfg.batchWindowMs)⟩) k
            ⟨[] ++ [y], some (Option.getD none cfg.batchWindowMs)⟩
            (getBuf_setBuf_same _ _ _)
        rw [this]
        rfl
      · rw [hstep]

/-- The callback that always fails, for the C6 witness. -/
def cbFail : String → List Snapshot → Except String Unit :=
  fun _ _ => Except.error "analysis failed"

/-- Witness for C6: with two snapshots buffered (min 2 reached), a flush
whose callback fails leaves the same state as a successful one, the
buffer stays cleared, a re-flush hands off nothing, and a racing add
lands in the fresh buffer. -/
theorem C6_witness :
    ((flushCB cfgB cbFail stB2 "inc1" false).1 = flush cfgB stB2 "inc1" false) ∧
    ((flush cfgB stB2 "inc1" false).2 = [s1B, s2B]) ∧
    (∀ force2, flush cfgB (flush cfgB stB2 "inc1" false).1 "inc1" force2
      = ((flush cfgB stB2 "inc1" false).1, [])) ∧
    (peek (add cfgB (flush cfgB stB2 "inc1" false).1 "inc1" s3B).1 "inc1" = [s3B]) :=
  ⟨(C6_callback_failure_isolated cfgB stB2 "inc1" false).1 cbFail,
   by decide,
   ((C6_callback_failure_isolated cfgB stB2 "inc1" false).2 (by decide)).2.1,
   (((C6_callback_failure_isolated cfgB stB2 "inc1" false).2 (by decide)).2.2 s3B
     (by decide)).1⟩

end SnapBuf

namespace SnapBuf

/-- The implicit invariant of C10: every key whose buffer holds at least
one snapshot has its (single) flush-check timer pending. -/
def BufInv (st : BufState) : Prop :=
  ∀ p ∈ st.buffers, p.2.snapshots ≠ [] → p.2.timer.isSome

instance (st : BufState) : Decidable (BufInv st) := by
  unfold BufInv
  infer_instance

lemma bufInv_setBuf (st : BufState) (k : String) (b : IncidentBuffer)
    (hst : BufInv st) (hb : b.snapshots ≠ [] → b.timer.isSome) :
    BufInv (setBuf st k b) := by
  intro p hp
  rcases mem_setBufL st.buffers k b p hp with h | h
  · rw [h]
    exact hb
  · exact hst p h

lemma bufInv_flush (cfg : BufConfig) (st : BufState) (k : String) (force : Bool)
    (hst : BufInv st) : BufInv (flush cfg st k force).1 := by
  cases hg : getBuf st k with
  | none =>
    rw [flush_missing cfg st k force hg]
    exact hst
  | some b =>
    by_cases h0 : b.snapshots.length = 0
    · rw [flush_empty_noop cfg st k force (by rw [getBufferSize_eq st k b hg, h0])]
      exact hst
    · by_cases hc : force = false ∧ b.snapshots.length < cfg.minBatchSize
      · have hskip : flush cfg st k force = (st, []) := by
          simp only [flush, hg, if_neg h0, if_pos hc]
        rw [hskip]
        exact hst
      · have hmin : force = true ∨ cfg.minBatchSize ≤ b.snapshots.length := by
          cases force with
          | true => exact Or.inl rfl
          | false =>
            right
            by_contra hlt
            exact hc ⟨rfl, not_le.mp hlt⟩
        rw [flush_proceeds cfg st k force b hg h0 hmin]
        exact bufInv_setBuf st k ⟨[], none⟩ hst (fun hne => absurd rfl hne)

lemma bufInv_add (cfg : BufConfig) (st : BufState) (k : String) (x : Snapshot)
    (hst : BufInv st) : BufInv (add cfg st k x).1 := by
  rw [add_eq]
  have hmid : BufInv (setBuf st k
      ⟨peek st k ++ [x], some ((timerOf st k).getD cfg.batchWindowMs)⟩) :=
    bufInv_setBuf st k _ hst (fun _ => rfl)
  by_cases hif : cfg.maxBatchSize ≤ (peek st k).length + 1
  · rw [if_pos hif]
    exact bufInv_flush cfg _ k false hmid
  · rw [if_neg hif]
    exact hmid

lemma bufInv_timerFlush (cfg : BufConfig) (st : BufState) (k : String)
    (hst : BufInv st) : BufInv (timerFlush cfg st k).1 := by
  cases hg : getBuf st k with
  | none =>
    simp only [timerFlush, hg]
    exact hst
  | some b =>
    simp only [timerFlush, hg]
    by_cases hif : cfg.minBatchSize ≤ b.snapshots.length
    · rw [if_pos hif]
      by_cases h0 : b.snapshots.length = 0
      · have hempty : flush cfg (setBuf st k { b with timer := none }) k false
            = (setBuf st k { b with timer := none }, []) :=
          flush_empty_noop cfg _ k false
            (by rw [getBufferSize_eq _ k { b with timer := none }
              (getBuf_setBuf_same _ _ _)]; exact h0)
        rw [hempty]
        exact bufInv_setBuf st k _ hst (fun hne => by
          exact absurd (List.length_eq_zero.mp h0) hne)
      · have hp := flush_proceeds cfg (setBuf st k { b with timer := none }) k false
          { b with timer := none } (getBuf_setBuf_same _ _ _) h0 (Or.inr hif)
        rw [hp, setBuf_setBuf]
        exact bufInv_setBuf st k ⟨[], none⟩ hst (fun hne => absurd rfl hne)
    · rw [if_neg hif, setBuf_setBuf]
      exact bufInv_setBuf st k _ hst (fun _ => rfl)

lemma bufInv_flushAll_go (cfg : BufConfig) (ids : List String) :
    ∀ acc : BufState × List (String × List Snapshot), BufInv acc.1 →
    BufInv ((ids.foldl
      (fun acc id =>
        let r := flush cfg acc.1 id true
        (r.1, acc.2 ++ [(id, r.2)]))
      acc)).1 := by
  induction ids with
  | nil =>
    intro acc h
    exact h
  | cons i rest ih =>
    intro acc h
    rw [List.foldl_cons]
    exact ih _ (bufInv_flush cfg acc.1 i true h)

/-- C10: the "nonempty buffer has exactly one pending timer" invariant
holds initially and is preserved by every completed `add`, timer-fire,
`flush`, and `flushAll` step, so no buffered snapshot is ever stranded
without a scheduled flush check. (The model's single `timer` field
mirrors the source, which never starts a timer while one is pending, so
`isSome` means exactly one.) -/
theorem C10_nonempty_buffer_has_timer (cfg : BufConfig) :
    BufInv ⟨[]⟩ ∧
    (∀ st k x, BufInv st → BufInv (add cfg st k x).1) ∧
    (∀ st k, BufInv st → BufInv (timerFlush cfg st k).1) ∧
    (∀ st k force, BufInv st → BufInv (flush cfg st k force).1) ∧
    (∀ st, BufInv st → BufInv (flushAll cfg st).1) := by
  refine ⟨?_, ?_, ?_, ?_, ?_⟩
  · intro p hp
    exact absurd hp (List.not_mem_nil p)
  · intro st k x h
    exact bufInv_add cfg st k x h
  · intro st k h
    exact bufInv_timerFlush cfg st k h
  · intro st k force h
    exact bufInv_flush cfg st k force h
  · intro st h
    unfold flushAll
    exact bufInv_flushAll_go cfg (st.buffers.map Prod.fst) (st, []) h

/-- Witness for C10: the invariant holds of a concrete one-key state and
is preserved by a concrete add, timer fire, flush, and flushAll. -/
theorem C10_witness :
    BufInv stB1 ∧
    BufInv (add cfgB stB1 "inc1" s2B).1 ∧
    BufInv (timerFlush cfgB stB1 "inc1").1 ∧
    BufInv (flush cfgB stB1 "inc1" true).1 ∧
    BufInv (flushAll cfgB stB1).1 :=
  ⟨by decide,
   (C10_nonempty_buffer_has_timer cfgB).2.1 stB1 "inc1" s2B (by decide),
   (C10_nonempty_buffer_has_timer cfgB).2.2.1 stB1 "inc1" (by decide),
   (C10_nonempty_buffer_has_timer cfgB).2.2.2.1 stB1 "inc1" true (by decide),
   (C10_nonempty_buffer_has_timer cfgB).2.2.2.2 stB1 (by decide)⟩

end SnapBuf

namespace SSE

/-- An `SSEClient` from `src/services/sse.ts`: id plus the optional
incident it subscribed to (the Express `res` channel is modelled by the
delivery log and the write-failure oracle in `SSEEnv`). -/
structure SSEClient where
  id : String
  incidentId : Option String
deriving DecidableEq, Repr

/-- Payloads of delivered events: the `connected` hello, a
`currentState` snapshot carrying the fetched state value, or an
ordinary published payload. -/
inductive EvPayload where
  | connInfo
  | stateSnap (v : Nat)
  | plain (n : Nat)
deriving DecidableEq, Repr

/-- The manager's collaborators: which clients' `res.write` throws, and
the injected `fetchCurrentStateCallback` (state provider); a provider
returning `none` covers both a null result and a caught fetch error. -/
structure SSEEnv where
  failing : String → Bool
  provider : Option (String → Option Nat)

/-- The manager's state: the `clients` map, the
`incidentSubscriptions` map (a JS `Set` kept in insertion order), and
the append-only log of events written to client channels. -/
structure SSEState where
  clients : List (String × SSEClient)
  incidentSubscriptions : List (String × List String)
  deliveries : List (String × String × EvPayload)
deriving DecidableEq, Repr

/-- `Map.get`. -/
def lookupL {α : Type} : List (String × α) → String → Option α
  | [], _ => none
  | (k1, v1) :: rest, k => if k1 = k then some v1 else lookupL rest k

/-- `Map.set`: replace in place or append. -/
def setL {α : Type} : List (String × α) → String → α → List (String × α)
  | [], k, v => [(k, v)]
  | (k1, v1) :: rest, k, v =>
    if k1 = k then (k, v) :: rest else (k1, v1) :: setL rest k v

/-- `Map.delete`. -/
def removeL {α : Type} : List (String × α) → String → List (String × α)
  | [], _ => []
  | (k1, v1) :: rest, k => if k1 = k then rest else (k1, v1) :: removeL rest k

/-- `removeClient` from `src/services/sse.ts`: drop the client from its
incident's subscriber set (deleting the set when it empties), then drop
it from the clients map. -/
def removeClient (st : SSEState) (id : String) : SSEState :=
  let st1 :=
    match lookupL st.clients id with
    | some client =>
      match client.incidentId with
      | some incId =>
        match lookupL st.incidentSubscriptions incId with
        | some subscribers =>
          let subs2 := subscribers.filter fun c => c ≠ id
          if subs2.isEmpty then
            { st with incidentSubscriptions := removeL st.incidentSubscriptions incId }
          else
            { st with incidentSubscriptions := setL st.incidentSubscriptions incId subs2 }
        | none => st
      | none => st
    | none => st
  { st1 with clients := removeL st1.clients id }

/-- `sendToClient` from `src/services/sse.ts`: unknown client returns
false; a write failure removes only that client and returns false;
otherwise the event is written to the client's channel. -/
def sendToClient (env : SSEEnv) (st : SSEState) (clientId : String)
    (event : String) (payload : EvPayload) : SSEState × Bool :=
  match lookupL st.clients clientId with
  | none => (st, false)
  | some _ =>
    if env.failing clientId then (removeClient st clientId, false)
    else ({ st with deliveries := st.deliveries ++ [(clientId, event, payload)] }, true)

/-- The `for (const clientId of ...)` send loop shared by `broadcast`
and `broadcastToIncident` (a failing send removes only the client being
visited, so iterating the snapshot matches live `Map`/`Set` iteration). -/
def broadcastLoop (env : SSEEnv) (st : SSEState) (ids : List String)
    (event : String) (payload : EvPayload) : SSEState :=
  match ids with
  | [] => st
  | id :: rest =>
    broadcastLoop env (sendToClient env st id event payload).1 rest event payload

/-- `broadcast` from `src/services/sse.ts`: send to every connected
client. -/
def broadcast (env : SSEEnv) (st : SSEState) (event : String)
    (payload : EvPayload) : SSEState :=
  broadcastLoop env st (st.clients.map Prod.fst) event payload

/-- `broadcastToIncident` from `src/services/sse.ts`: send to the
incident's subscribers, skipping when there are none. -/
def broadcastToIncident (env : SSEEnv) (st : SSEState) (incidentId : String)
    (event : String) (payload : EvPayload) : SSEState :=
  match lookupL st.incidentSubscriptions incidentId with
  | none => st
  | some subscribers =>
    if subscribers.isEmpty then st
    else broadcastLoop env st subscribers event payload

/-- `sendCurrentState` from `src/services/sse.ts`: with no callback set
nothing is sent; a `null` result (or caught fetch error) sends nothing;
otherwise the `currentState` event goes to that one client. -/
def sendCurrentState (env : SSEEnv) (st : SSEState) (clientId incidentId : String) :
    SSEState :=
  match env.provider with
  | none => st
  | some fetch =>
    match fetch incidentId with
    | none => st
    | some v =>
      (sendToClient env st clientId "currentState" (EvPayload.stateSnap v)).1

/-- `setupClient` from `src/services/sse.ts`: register the client and
send it the `connected` hello. -/
def setupClient (env : SSEEnv) (st : SSEState) (id : String)
    (incidentId : Option String) : SSEState :=
  let st1 := { st with clients := setL st.clients id ⟨id, incidentId⟩ }
  (sendToClient env st1 id "connected" EvPayload.connInfo).1

/-- The synchronous first half of `subscribeToIncident`: set up the
client and record the subscription (a JS `Set` never holds duplicates). -/
def subscribeStep1 (env : SSEEnv) (st : SSEState) (clientId incidentId : String) :
    SSEState :=
  let st1 := setupClient env st clientId (some incidentId)
  let subs := (lookupL st1.incidentSubscriptions incidentId).getD []
  { st1 with
    incidentSubscriptions :=
      setL st1.incidentSubscriptions incidentId
        (if clientId ∈ subs then subs else subs ++ [clientId]) }

/-- `subscribeToIncident` from `src/services/sse.ts`. The
`await this.sendCurrentState(...)` suspends at the state-provider fetch,
so events published to the topic in that window (`mid`) are delivered
between the subscription registration and the `currentState` push;
`mid = []` is the uninterrupted run. -/
def subscribeToIncident (env : SSEEnv) (st : SSEState) (clientId incidentId : String)
    (mid : List (String × EvPayload)) : SSEState :=
  sendCurrentState env
    (mid.foldl (fun acc ev => broadcastToIncident env acc incidentId ev.1 ev.2)
      (subscribeStep1 env st clientId incidentId))
    clientId incidentId

/-- The events delivered on one client's channel, in order. -/
def deliveriesTo (st : SSEState) (clientId : String) : List (String × EvPayload) :=
  (st.deliveries.filter fun d => d.1 = clientId).map fun d => d.2

/-- Empty hub state. -/
def st0 : SSEState := ⟨[], [], []⟩

/-- Witness state provider: every topic's materialized state is `7`. -/
def prov0 : String → Option Nat := fun _ => some 7

/-- Witness environment: no write failures, provider `prov0`. -/
def env0 : SSEEnv := ⟨fun _ => false, some prov0⟩

/-- Counterexample to C2: a client subscribes to incident `I`; one event
is published to `I` while the (asynchronous) current-state fetch is in
flight; the client receives that published event before its
`currentState` event, violating the claimed strict ordering. -/
theorem C2_counterexample :
    deliveriesTo (subscribeToIncident env0 st0 "c" "I"
        [("newSnapshot", EvPayload.plain 1)]) "c"
      = [("connected", EvPayload.connInfo),
         ("newSnapshot", EvPayload.plain 1),
         ("currentState", EvPayload.stateSnap 7)] := by
  decide

end SSE

namespace SSE

lemma lookupL_setL_same {α : Type} (l : List (String × α)) (k : String) (v : α) :
    lookupL (setL l k v) k = some v := by
  induction l with
  | nil => simp [setL, lookupL]
  | cons p rest ih =>
    obtain ⟨k1, v1⟩ := p
    by_cases h : k1 = k
    · simp [setL, lookupL, h]
    · simp [setL, lookupL, h, ih]

lemma lookupL_setL_other {α : Type} (l : List (String × α)) (k k2 : String) (v : α)
    (h : k2 ≠ k) : lookupL (setL l k v) k2 = lookupL l k2 := by
  induction l with
  | nil => simp [setL, lookupL, Ne.symm h]
  | cons p rest ih =>
    obtain ⟨k1, v1⟩ := p
    by_cases h1 : k1 = k
    · subst h1
      simp [setL, lookupL, Ne.symm h]
    · simp only [setL, if_neg h1, lookupL]
      by_cases h2 : k1 = k2
      · simp [h2]
      · simp [h2, ih]

lemma lookupL_removeL_other {α : Type} (l : List (String × α)) (k k2 : String)
    (h : k2 ≠ k) : lookupL (removeL l k) k2 = lookupL l k2 := by
  induction l with
  | nil => rfl
  | cons p rest ih =>
    obtain ⟨k1, v1⟩ := p
    by_cases h1 : k1 = k
    · subst h1
      simp [removeL, lookupL, Ne.symm h]
    · simp only [removeL, if_neg h1, lookupL]
      by_cases h2 : k1 = k2
      · simp [h2]
      · simp [h2, ih]

lemma lookupL_eq_none_of_not_mem {α : Type} (l : List (String × α)) (k : String)
    (h : k ∉ l.map Prod.fst) : lookupL l k = none := by
  induction l with
  | nil => rfl
  | cons p rest ih =>
    obtain ⟨k1, v1⟩ := p
    simp only [List.map_cons, List.mem_cons] at h
    push_neg at h
    simp only [lookupL, if_neg (Ne.symm h.1)]
    exact ih h.2

lemma mem_keys_of_lookupL {α : Type} (l : List (String × α)) (k : String) (v : α)
    (h : lookupL l k = some v) : k ∈ l.map Prod.fst := by
  induction l with
  | nil => simp [lookupL] at h
  | cons p rest ih =>
    obtain ⟨k1, v1⟩ := p
    by_cases h1 : k1 = k
    · simp [h1]
    · simp only [lookupL, if_neg h1] at h
      simp [ih h]

lemma lookupL_removeL_same {α : Type} (l : List (String × α)) (k : String)
    (h : (l.map Prod.fst).Nodup) : lookupL (removeL l k) k = none := by
  induction l with
  | nil => rfl
  | cons p rest ih =>
    obtain ⟨k1, v1⟩ := p
    simp only [List.map_cons, List.nodup_cons] at h
    by_cases h1 : k1 = k
    · subst h1
      simp only [removeL, if_pos rfl]
      exact lookupL_eq_none_of_not_mem rest k1 h.1
    · simp only [removeL, if_neg h1, lookupL, if_neg h1]
      exact ih h.2

lemma keys_removeL_sublist {α : Type} (l : List (String × α)) (k : String) :
    ((removeL l k).map Prod.fst).Sublist (l.map Prod.fst) := by
  induction l with
  | nil => simp [removeL]
  | cons p rest ih =>
    obtain ⟨k1, v1⟩ := p
    by_cases h1 : k1 = k
    · simp only [removeL, if_pos h1, List.map_cons]
      exact List.sublist_cons_of_sublist k1 (List.Sublist.refl _)
    · simp only [removeL, if_neg h1, List.map_cons]
      exact List.Sublist.cons₂ k1 ih

lemma removeClient_deliveries (st : SSEState) (t : String) :
    (removeClient st t).deliveries = st.deliveries := by
  cases hx : lookupL st.clients t with
  | none => simp [removeClient, hx]
  | some cl =>
    cases hy : cl.incidentId with
    | none => simp [removeClient, hx, hy]
    | some incId =>
      cases hz : lookupL st.incidentSubscriptions incId with
      | none => simp [removeClient, hx, hy, hz]
      | some subs =>
        simp only [removeClient, hx, hy, hz]
        split <;> rfl

lemma removeClient_clients (st : SSEState) (t : String) :
    (removeClient st t).clients = removeL st.clients t := by
  cases hx : lookupL st.clients t with
  | none => simp [removeClient, hx]
  | some cl =>
    cases hy : cl.incidentId with
    | none => simp [removeClient, hx, hy]
    | some incId =>
      cases hz : lookupL st.incidentSubscriptions incId with
      | none => simp [removeClient, hx, hy, hz]
      | some subs =>
        simp only [removeClient, hx, hy, hz]
        split <;> rfl

lemma sendToClient_missing (env : SSEEnv) (st : SSEState) (t e : String) (p : EvPayload)
    (hx : lookupL st.clients t = none) : (sendToClient env st t e p).1 = st := by
  simp [sendToClient, hx]

lemma sendToClient_failing (env : SSEEnv) (st : SSEState) (t e : String) (p : EvPayload)
    (cl : SSEClient) (hx : lookupL st.clients t = some cl)
    (hf : env.failing t = true) :
    (sendToClient env st t e p).1 = removeClient st t := by
  simp [sendToClient, hx, hf]

lemma sendToClient_success (env : SSEEnv) (st : SSEState) (t e : String) (p : EvPayload)
    (cl : SSEClient) (hx : lookupL st.clients t = some cl)
    (hf : env.failing t = false) :
    (sendToClient env st t e p).1
      = { st with deliveries := st.deliveries ++ [(t, e, p)] } := by
  simp [sendToClient, hx, hf]

lemma sendToClient_clients_other (env : SSEEnv) (st : SSEState) (t e : String)
    (p : EvPayload) (id : String) (h : id ≠ t) :
    lookupL (sendToClient env st t e p).1.clients id = lookupL st.clients id := by
  cases hx : lookupL st.clients t with
  | none => rw [sendToClient_missing env st t e p hx]
  | some cl =>
    cases hf : env.failing t with
    | true =>
      rw [sendToClient_failing env st t e p cl hx hf, removeClient_clients]
      exact lookupL_removeL_other _ _ _ h
    | false =>
      rw [sendToClient_success env st t e p cl hx hf]

lemma sendToClient_other_filter (env : SSEEnv) (st : SSEState) (t e : String)
    (p : EvPayload) (c : String) (h : t ≠ c) :
    deliveriesTo (sendToClient env st t e p).1 c = deliveriesTo st c := by
  cases hx : lookupL st.clients t with
  | none => rw [sendToClient_missing env st t e p hx]
  | some cl =>
    cases hf : env.failing t with
    | true =>
      rw [sendToClient_failing env st t e p cl hx hf]
      unfold deliveriesTo
      rw [removeClient_deliveries]
    | false =>
      rw [sendToClient_success env st t e p cl hx hf]
      unfold deliveriesTo
      simp [List.filter_append, h]

lemma sendToClient_keys_nodup (env : SSEEnv) (st : SSEState) (t e : String)
    (p : EvPayload) (h : (st.clients.map Prod.fst).Nodup) :
    ((sendToClient env st t e p).1.clients.map Prod.fst).Nodup := by
  cases hx : lookupL st.clients t with
  | none => rw [sendToClient_missing env st t e p hx]; exact h
  | some cl =>
    cases hf : env.failing t with
    | true =>
      rw [sendToClient_failing env st t e p cl hx hf, removeClient_clients]
      exact (keys_removeL_sublist st.clients t).nodup h
    | false =>
      rw [sendToClient_success env st t e p cl hx hf]
      exact h

end SSE

namespace SSE

lemma broadcastLoop_clients_not_mem (env : SSEEnv) (e : String) (p : EvPayload) :
    ∀ (ids : List String) (st : SSEState) (id : String), id ∉ ids →
    lookupL (broadcastLoop env st ids e p).clients id = lookupL st.clients id := by
  intro ids
  induction ids with
  | nil => intro st id _; rfl
  | cons j rest ih =>
    intro st id hid
    simp only [List.mem_cons] at hid
    push_neg at hid
    simp only [broadcastLoop]
    rw [ih _ id hid.2]
    exact sendToClient_clients_other env st j e p id hid.1

lemma broadcastLoop_deliveries_mono (env : SSEEnv) (e : String) (p : EvPayload) :
    ∀ (ids : List String) (st : SSEState) (d : String × String × EvPayload),
    d ∈ st.deliveries → d ∈ (broadcastLoop env st ids e p).deliveries := by
  intro ids
  induction ids with
  | nil => intro st d hd; exact hd
  | cons j rest ih =>
    intro st d hd
    simp only [broadcastLoop]
    refine ih _ d ?_
    cases hx : lookupL st.clients j with
    | none => rw [sendToClient_missing env st j e p hx]; exact hd
    | some cl =>
      cases hf : env.failing j with
      | true =>
        rw [sendToClient_failing env st j e p cl hx hf]
        show d ∈ (removeClient st j).deliveries
        rw [removeClient_deliveries]
        exact hd
      | false =>
        rw [sendToClient_success env st j e p cl hx hf]
        exact List.mem_append_left _ hd

lemma broadcastLoop_keys_nodup (env : SSEEnv) (e : String) (p : EvPayload) :
    ∀ (ids : List String) (st : SSEState), (st.clients.map Prod.fst).Nodup →
    ((broadcastLoop env st ids e p).clients.map Prod.fst).Nodup := by
  intro ids
  induction ids with
  | nil => intro st h; exact h
  | cons j rest ih =>
    intro st h
    simp only [broadcastLoop]
    exact ih _ (sendToClient_keys_nodup env st j e p h)

lemma broadcastLoop_filter_not_mem (env : SSEEnv) (e : String) (p : EvPayload)
    (c : String) :
    ∀ (ids : List String) (st : SSEState), c ∉ ids →
    deliveriesTo (broadcastLoop env st ids e p) c = deliveriesTo st c := by
  intro ids
  induction ids with
  | nil => intro st _; rfl
  | cons j rest ih =>
    intro st hc
    simp only [List.mem_cons] at hc
    push_neg at hc
    simp only [broadcastLoop]
    rw [ih _ hc.2]
    exact sendToClient_other_filter env st j e p c (Ne.symm hc.1)

lemma lookupL_ne_none_of_mem {α : Type} (l : List (String × α)) (k : String)
    (h : k ∈ l.map Prod.fst) : lookupL l k ≠ none := by
  induction l with
  | nil => simp at h
  | cons p rest ih =>
    obtain ⟨k1, v1⟩ := p
    by_cases h1 : k1 = k
    · simp [lookupL, h1]
    · simp only [List.map_cons, List.mem_cons] at h
      rcases h with h | h
      · exact absurd h.symm h1
      · simp only [lookupL, if_neg h1]
        exact ih h

lemma broadcastLoop_self (env : SSEEnv) (e : String) (p : EvPayload) (c : String)
    (cl : SSEClient) :
    ∀ (ids1 : List String) (st : SSEState), c ∉ ids1 →
    env.failing c = false → lookupL st.clients c = some cl →
    deliveriesTo (broadcastLoop env st (ids1 ++ [c]) e p) c
      = deliveriesTo st c ++ [(e, p)] := by
  intro ids1
  induction ids1 with
  | nil =>
    intro st _ hfail hcl
    simp only [List.nil_append, broadcastLoop]
    rw [sendToClient_success env st c e p cl hcl hfail]
    unfold deliveriesTo
    simp [List.filter_append]
  | cons j rest ih =>
    intro st hc hfail hcl
    simp only [List.mem_cons] at hc
    push_neg at hc
    simp only [List.cons_append, broadcastLoop]
    have hcl1 : lookupL (sendToClient env st j e p).1.clients c = some cl := by
      rw [sendToClient_clients_other env st j e p c hc.1]
      exact hcl
    have hrec := ih (sendToClient env st j e p).1 hc.2 hfail hcl1
    rw [sendToClient_other_filter env st j e p c (Ne.symm hc.1)] at hrec
    exact hrec

lemma broadcastLoop_spec (env : SSEEnv) (e : String) (p : EvPayload) :
    ∀ (ids : List String) (st : SSEState), ids.Nodup →
    (st.clients.map Prod.fst).Nodup →
    (∀ id cl, id ∈ ids → lookupL st.clients id = some cl → env.failing id = false →
      (id, e, p) ∈ (broadcastLoop env st ids e p).deliveries ∧
      lookupL (broadcastLoop env st ids e p).clients id = some cl) ∧
    (∀ id, id ∈ ids → env.failing id = true → lookupL st.clients id ≠ none →
      lookupL (broadcastLoop env st ids e p).clients id = none) := by
  intro ids
  induction ids with
  | nil =>
    intro st _ _
    constructor
    · intro id cl hid
      exact absurd hid (List.not_mem_nil id)
    · intro id hid
      exact absurd hid (List.not_mem_nil id)
  | cons j rest ih =>
    intro st hnd hkeys
    rw [List.nodup_cons] at hnd
    constructor
    · intro id cl hid hcl hfail
      simp only [broadcastLoop]
      rcases List.mem_cons.mp hid with hj | hr
      · subst hj
        rw [sendToClient_success env st id e p cl hcl hfail]
        constructor
        · refine broadcastLoop_deliveries_mono env e p rest _ _ ?_
          exact List.mem_append_right _ (List.mem_singleton.mpr rfl)
        · rw [broadcastLoop_clients_not_mem env e p rest
            { st with deliveries := st.deliveries ++ [(id, e, p)] } id hnd.1]
          exact hcl
      · have hne : id ≠ j := fun hEq => hnd.1 (hEq ▸ hr)
        have hcl1 : lookupL (sendToClient env st j e p).1.clients id = some cl := by
          rw [sendToClient_clients_other env st j e p id hne]
          exact hcl
        exact (ih _ hnd.2 (sendToClient_keys_nodup env st j e p hkeys)).1
          id cl hr hcl1 hfail
    · intro id hid hfail hne0
      simp only [broadcastLoop]
      rcases List.mem_cons.mp hid with hj | hr
      · subst hj
        cases hx : lookupL st.clients id with
        | none => exact absurd hx hne0
        | some cl =>
          rw [sendToClient_failing env st id e p cl hx hfail]
          rw [broadcastLoop_clients_not_mem env e p rest (removeClient st id) id hnd.1]
          rw [removeClient_clients]
          exact lookupL_removeL_same _ _ hkeys
      · have hne : id ≠ j := fun hEq => hnd.1 (hEq ▸ hr)
        have hpres : lookupL (sendToClient env st j e p).1.clients id
            = lookupL st.clients id :=
          sendToClient_clients_other env st j e p id hne
        refine (ih _ hnd.2 (sendToClient_keys_nodup env st j e p hkeys)).2
          id hr hfail ?_
        rw [hpres]
        exact hne0

/-- C8: for a `broadcast`, every connected client whose channel write
does not fail receives the published event and stays connected; a
client whose write fails is removed from the hub; and no client is
added by a broadcast — so one client's mid-publish write failure or
disconnection never costs another connected client the publish. -/
theorem C8_write_failure_isolated (env : SSEEnv) (st : SSEState) (e : String)
    (p : EvPayload) (hkeys : (st.clients.map Prod.fst).Nodup) :
    (∀ id cl, lookupL st.clients id = some cl → env.failing id = false →
      (id, e, p) ∈ (broadcast env st e p).deliveries ∧
      lookupL (broadcast env st e p).clients id = some cl) ∧
    (∀ id, lookupL st.clients id ≠ none → env.failing id = true →
      lookupL (broadcast env st e p).clients id = none) ∧
    (∀ id, lookupL st.clients id = none →
      lookupL (broadcast env st e p).clients id = none) := by
  have hspec := broadcastLoop_spec env e p (st.clients.map Prod.fst) st hkeys hkeys
  refine ⟨?_, ?_, ?_⟩
  · intro id cl hcl hfail
    exact hspec.1 id cl (mem_keys_of_lookupL _ _ _ hcl) hcl hfail
  · intro id hne hfail
    exact hspec.2 id (by
      cases hx : lookupL st.clients id with
      | none => exact absurd hx hne
      | some cl => exact mem_keys_of_lookupL _ _ _ hx) hfail hne
  · intro id hx
    unfold broadcast
    rw [broadcastLoop_clients_not_mem env e p (st.clients.map Prod.fst) st id
      (fun hmem => lookupL_ne_none_of_mem st.clients id hmem hx)]
    exact hx

end SSE

namespace SSE

lemma subscribeStep1_eq (env : SSEEnv) (st : SSEState) (c I : String)
    (hfail : env.failing c = false)
    (hnot : c ∉ (lookupL st.incidentSubscriptions I).getD []) :
    subscribeStep1 env st c I =
      { clients := setL st.clients c ⟨c, some I⟩,
        incidentSubscriptions :=
          setL st.incidentSubscriptions I
            ((lookupL st.incidentSubscriptions I).getD [] ++ [c]),
        deliveries := st.deliveries ++ [(c, "connected", EvPayload.connInfo)] } := by
  unfold subscribeStep1 setupClient
  rw [sendToClient_success env { st with clients := setL st.clients c ⟨c, some I⟩ } c
    "connected" EvPayload.connInfo ⟨c, some I⟩ (lookupL_setL_same _ _ _) hfail]
  dsimp only
  rw [if_neg hnot]

/-- C2 (amended): after a topic-scoped connect whose state provider is
set, returns a state, and whose channel does not fail, the hub pushes
exactly one `currentState` event, to that one client only; when no
publish interleaves with the asynchronous state fetch, the
`currentState` event precedes every event published to the topic after
the connect — but an event published during the fetch window is
delivered before `currentState` (see the counterexample), and the
snapshot reflects the provider state at fetch completion, not connect
time. -/
theorem C2_amended_late_join (env : SSEEnv) (st : SSEState) (c I : String)
    (f : String → Option Nat) (v : Nat)
    (hprov : env.provider = some f) (hf : f I = some v)
    (hfail : env.failing c = false)
    (hnot : c ∉ (lookupL st.incidentSubscriptions I).getD []) :
    ((subscribeToIncident env st c I []).deliveries
      = st.deliveries ++ [(c, "connected", EvPayload.connInfo),
                          (c, "currentState", EvPayload.stateSnap v)]) ∧
    (∀ e p,
      deliveriesTo (broadcastToIncident env (subscribeToIncident env st c I []) I e p) c
        = deliveriesTo st c
          ++ [("connected", EvPayload.connInfo),
              ("currentState", EvPayload.stateSnap v), (e, p)]) := by
  have hstep1 := subscribeStep1_eq env st c I hfail hnot
  have hsub : subscribeToIncident env st c I [] =
      { clients := setL st.clients c ⟨c, some I⟩,
        incidentSubscriptions :=
          setL st.incidentSubscriptions I
            ((lookupL st.incidentSubscriptions I).getD [] ++ [c]),
        deliveries := st.deliveries
          ++ [(c, "connected", EvPayload.connInfo),
              (c, "currentState", EvPayload.stateSnap v)] } := by
    unfold subscribeToIncident
    rw [List.foldl_nil, hstep1]
    unfold sendCurrentState
    simp only [hprov, hf]
    rw [sendToClient_success env _ c "currentState" (EvPayload.stateSnap v)
      ⟨c, some I⟩ (lookupL_setL_same _ _ _) hfail]
    dsimp only
    rw [List.append_assoc]
    rfl
  constructor
  · rw [hsub]
  · intro e p
    rw [hsub]
    unfold broadcastToIncident
    have hlook := lookupL_setL_same st.incidentSubscriptions I
      ((lookupL st.incidentSubscriptions I).getD [] ++ [c])
    simp only [hlook]
    rw [if_neg (by simp)]
    rw [broadcastLoop_self env e p c ⟨c, some I⟩
      ((lookupL st.incidentSubscriptions I).getD []) _ hnot hfail
      (lookupL_setL_same _ _ _)]
    unfold deliveriesTo
    simp [List.filter_append]

/-- Witness environment for C8: writes to client `bad` fail. -/
def envF : SSEEnv := ⟨fun s => s = "bad", none⟩

/-- Witness hub state for C8: two connected clients. -/
def stC : SSEState :=
  ⟨[("good", ⟨"good", none⟩), ("bad", ⟨"bad", none⟩)], [], []⟩

/-- Witness for C8: broadcasting with one failing client delivers to the
healthy client, keeps it connected, and removes only the failing one. -/
theorem C8_witness :
    ((stC.clients.map Prod.fst).Nodup) ∧
    (("good", "newVideo", EvPayload.plain 5)
      ∈ (broadcast envF stC "newVideo" (EvPayload.plain 5)).deliveries) ∧
    (lookupL (broadcast envF stC "newVideo" (EvPayload.plain 5)).clients "good"
      = some ⟨"good", none⟩) ∧
    (lookupL (broadcast envF stC "newVideo" (EvPayload.plain 5)).clients "bad"
      = none) :=
  ⟨by decide,
   ((C8_write_failure_isolated envF stC "newVideo" (EvPayload.plain 5) (by decide)).1
     "good" ⟨"good", none⟩ (by decide) (by decide)).1,
   ((C8_write_failure_isolated envF stC "newVideo" (EvPayload.plain 5) (by decide)).1
     "good" ⟨"good", none⟩ (by decide) (by decide)).2,
   (C8_write_failure_isolated envF stC "newVideo" (EvPayload.plain 5) (by decide)).2.1
     "bad" (by decide) (by decide)⟩

/-- Witness for the amended C2: an uninterrupted subscribe on a fresh
hub delivers exactly `connected` then `currentState` to the client, and
a subsequent topic publish lands after the `currentState` event. -/
theorem C2_witness :
    ((subscribeToIncident env0 st0 "c" "I" []).deliveries
      = [("c", "connected", EvPayload.connInfo),
         ("c", "currentState", EvPayload.stateSnap 7)]) ∧
    (deliveriesTo (broadcastToIncident env0 (subscribeToIncident env0 st0 "c" "I" [])
        "I" "newSnapshot" (EvPayload.plain 1)) "c"
      = [("connected", EvPayload.connInfo), ("currentState", EvPayload.stateSnap 7),
         ("newSnapshot", EvPayload.plain 1)]) :=
  ⟨(C2_amended_late_join env0 st0 "c" "I" prov0 7 rfl rfl rfl (by decide)).1,
   (C2_amended_late_join env0 st0 "c" "I" prov0 7 rfl rfl rfl (by decide)).2
     "newSnapshot" (EvPayload.plain 1)⟩

end SSE

namespace WS

/-- `VideoSession` from `src/services/snapshotWebSocket.ts` (the `ws`
handle is the session's key in the map). -/
structure VideoSession where
  videoId : String
  incidentId : Nat
  lat : ℝ
  lng : ℝ
  filename : Option String

/-- The fields of a `videos` row touched by `updateVideoStatus`. -/
structure VideoRow where
  id : String
  status : Grouper.VideoStatus
  endedAt : Option Int
  videoUrl : Option String
  updatedAt : Option Int

/-- State visible to the WebSocket manager: the per-connection session
map (keyed by the socket), the `videos` table, the clock, a log of the
status-update operations performed against persistence, and the
broadcast events emitted. -/
structure WsState where
  sessions : List (Nat × VideoSession)
  videos : List VideoRow
  now : Int
  updateLog : List (String × Grouper.VideoStatus)
  broadcasts : List String

/-- `Map.get` on the session map. -/
def lookupWS : List (Nat × VideoSession) → Nat → Option VideoSession
  | [], _ => none
  | (k1, v1) :: rest, k => if k1 = k then some v1 else lookupWS rest k

/-- `Map.delete` on the session map. -/
def removeWS : List (Nat × VideoSession) → Nat → List (Nat × VideoSession)
  | [], _ => []
  | (k1, v1) :: rest, k => if k1 = k then rest else (k1, v1) :: removeWS rest k

/-- `updateVideoStatus` from `src/services/incidentGrouper.ts`: set the
status (and `updatedAt`), record `endedAt` for `ended`/`recorded`, set
the URL when provided; each call is one persistence update, recorded in
the log. -/
def updateVideoStatus (st : WsState) (videoId : String)
    (status : Grouper.VideoStatus) (videoUrl : Option String) : WsState :=
  { st with
    videos := st.videos.map fun v =>
      if v.id = videoId then
        { v with
          status := status
          updatedAt := some st.now
          endedAt :=
            if status = Grouper.VideoStatus.ended ∨
                status = Grouper.VideoStatus.recorded then some st.now
            else v.endedAt
          videoUrl :=
            match videoUrl with
            | some u => some u
            | none => v.videoUrl }
      else v
    updateLog := st.updateLog ++ [(videoId, status)] }

/-- `handleVideoEnded` from `src/services/snapshotWebSocket.ts`: with no
session, reply with an error and mutate nothing; otherwise mark the
owned video `ended`, broadcast `videoStatusChanged`, and acknowledge.
The session entry is NOT removed. -/
def handleVideoEnded (st : WsState) (conn : Nat) : WsState × List String :=
  match lookupWS st.sessions conn with
  | none => (st, ["error: Session not initialized. Send init first."])
  | some session =>
    let st1 := updateVideoStatus st session.videoId Grouper.VideoStatus.ended none
    let st2 := { st1 with broadcasts := st1.broadcasts ++ ["videoStatusChanged"] }
    (st2, ["videoEnded_ack"])

/-- `handleDisconnect` from `src/services/snapshotWebSocket.ts`: with no
session the closure performs no state mutation; otherwise mark the
owned video `ended`, broadcast, and delete the session. -/
def handleDisconnect (st : WsState) (conn : Nat) : WsState :=
  match lookupWS st.sessions conn with
  | none => st
  | some session =>
    let st1 := updateVideoStatus st session.videoId Grouper.VideoStatus.ended none
    let st2 := { st1 with broadcasts := st1.broadcasts ++ ["videoStatusChanged"] }
    { st2 with sessions := removeWS st2.sessions conn }

/-- The witness session: connection 0 owns video `v1`. -/
def sessW : VideoSession := ⟨"v1", 0, 0, 0, none⟩

/-- The witness state: one active session, its video live. -/
def s0W : WsState :=
  ⟨[(0, sessW)], [⟨"v1", Grouper.VideoStatus.live, none, none, none⟩], 100, [], []⟩

/-- Counterexample to C4: after a session is active, an explicit
`videoEnded` message followed by the connection closing performs the
ended status update twice (the session survives `handleVideoEnded`, so
`handleDisconnect` updates again), not exactly once as claimed. -/
theorem C4_counterexample :
    (handleDisconnect (handleVideoEnded s0W 0).1 0).updateLog
      = [("v1", Grouper.VideoStatus.ended), ("v1", Grouper.VideoStatus.ended)] := rfl

end WS

namespace WS

lemma lookupWS_eq_none_of_not_mem (l : List (Nat × VideoSession)) (k : Nat)
    (h : k ∉ l.map Prod.fst) : lookupWS l k = none := by
  induction l with
  | nil => rfl
  | cons p rest ih =>
    obtain ⟨k1, v1⟩ := p
    simp only [List.map_cons, List.mem_cons] at h
    push_neg at h
    simp only [lookupWS, if_neg (Ne.symm h.1)]
    exact ih h.2

lemma lookupWS_removeWS_same (l : List (Nat × VideoSession)) (k : Nat)
    (h : (l.map Prod.fst).Nodup) : lookupWS (removeWS l k) k = none := by
  induction l with
  | nil => rfl
  | cons p rest ih =>
    obtain ⟨k1, v1⟩ := p
    simp only [List.map_cons, List.nodup_cons] at h
    by_cases h1 : k1 = k
    · subst h1
      simp only [removeWS, if_pos rfl]
      exact lookupWS_eq_none_of_not_mem rest k1 h.1
    · simp only [removeWS, if_neg h1, lookupWS, if_neg h1]
      exact ih h.2

lemma handleDisconnect_none (st : WsState) (conn : Nat)
    (h : lookupWS st.sessions conn = none) : handleDisconnect st conn = st := by
  simp only [handleDisconnect, h]

lemma updateVideoStatus_status (st : WsState) (videoId : String)
    (status : Grouper.VideoStatus) (videoUrl : Option String) :
    ∀ v ∈ (updateVideoStatus st videoId status videoUrl).videos,
      v.id = videoId → v.status = status := by
  intro v hv hid
  simp only [updateVideoStatus, List.mem_map] at hv
  obtain ⟨w, hw, hmap⟩ := hv
  by_cases h : w.id = videoId
  · rw [if_pos h] at hmap
    subst hmap
    rfl
  · rw [if_neg h] at hmap
    subst hmap
    exact absurd hid h

/-- C4 (amended): while a session exists, each closure signal performs
one ended-status update — so an explicit `videoEnded` followed by the
connection closing performs it twice, since `handleVideoEnded` keeps
the session (see the counterexample), although the video's status is
`ended` after either — while `handleDisconnect` removes the session, so
a second disconnect mutates nothing, and a connection that closes
without ever becoming active performs no state mutation at all. -/
theorem C4_amended_session_end (st : WsState) (conn : Nat) :
    (∀ sess, lookupWS st.sessions conn = some sess →
      ((handleVideoEnded st conn).1.updateLog
          = st.updateLog ++ [(sess.videoId, Grouper.VideoStatus.ended)] ∧
        lookupWS (handleVideoEnded st conn).1.sessions conn = some sess ∧
        (∀ v ∈ (handleVideoEnded st conn).1.videos, v.id = sess.videoId →
          v.status = Grouper.VideoStatus.ended)) ∧
      ((handleDisconnect st conn).updateLog
          = st.updateLog ++ [(sess.videoId, Grouper.VideoStatus.ended)] ∧
        (∀ v ∈ (handleDisconnect st conn).videos, v.id = sess.videoId →
          v.status = Grouper.VideoStatus.ended) ∧
        ((st.sessions.map Prod.fst).Nodup →
          handleDisconnect (handleDisconnect st conn) conn
            = handleDisconnect st conn))) ∧
    (lookupWS st.sessions conn = none → handleDisconnect st conn = st) := by
  constructor
  · intro sess hsess
    refine ⟨⟨?_, ?_, ?_⟩, ?_, ?_, ?_⟩
    · simp only [handleVideoEnded, hsess, updateVideoStatus]
    · simp only [handleVideoEnded, hsess]
      exact hsess
    · simp only [handleVideoEnded, hsess]
      exact updateVideoStatus_status st sess.videoId Grouper.VideoStatus.ended none
    · simp only [handleDisconnect, hsess, updateVideoStatus]
    · simp only [handleDisconnect, hsess]
      exact updateVideoStatus_status st sess.videoId Grouper.VideoStatus.ended none
    · intro hnd
      have hgone : lookupWS (handleDisconnect st conn).sessions conn = none := by
        simp only [handleDisconnect, hsess, updateVideoStatus]
        exact lookupWS_removeWS_same st.sessions conn hnd
      exact handleDisconnect_none _ conn hgone
  · intro hnone
    exact handleDisconnect_none st conn hnone

/-- Witness for the amended C4: on the concrete one-session state, a
`videoEnded` performs one logged update and keeps the session; a
disconnect performs one logged update, ends the video, and a repeated
disconnect is a no-op. -/
theorem C4_witness :
    (lookupWS s0W.sessions 0 = some sessW) ∧
    ((handleVideoEnded s0W 0).1.updateLog
      = [(sessW.videoId, Grouper.VideoStatus.ended)]) ∧
    (handleDisconnect (handleDisconnect s0W 0) 0 = handleDisconnect s0W 0) :=
  ⟨rfl,
   (((C4_amended_session_end s0W 0).1 sessW rfl).1).1,
   (((C4_amended_session_end s0W 0).1 sessW rfl).2).2.2 (by simp [s0W])⟩

end WS
